import Mathlib

/-!
Shallow embedding of the order transaction engine of the pos-backend
repository (services/orderService.js, services/tableService.js and the
extended orderService variant with updateOrderItems).

Conventions of the embedding:
* JavaScript numbers are modelled as rationals (ℚ); `x || d` on a numeric
  field is `jsOr x d` (0 and the default coincide for `|| 0`).
* Mongo documents are Lean structures; the collections live in a `DB`
  record: the order collection is a list (insertion order = natural order,
  so `findOne` is `List.find?`), tables and inventory items are partial
  maps `Nat → Option _`.
* A Mongo transaction is modelled by `Except Err (DB × _)`: every service
  function returns either the committed state plus its result document, or
  the error it threw — in which case the transaction was aborted and no
  state change is observable (the catch/abortTransaction blocks of the
  source).
* `Map` objects built by the consumption calculator are association lists
  with JavaScript `Map.set` semantics (`mapSet` replaces in place or
  appends, preserving insertion order).
-/

namespace POS

/-- JavaScript `x || d` on numbers: 0 is falsy. -/
def jsOr (x d : ℚ) : ℚ := if x = 0 then d else x

@[simp] theorem jsOr_zero (x : ℚ) : jsOr x 0 = x := by
  unfold jsOr; split <;> simp_all

theorem jsOr_of_ne (x d : ℚ) (h : x ≠ 0) : jsOr x d = x := by
  unfold jsOr; simp [h]

abbrev MenuId := Nat
abbrev StockId := Nat
abbrev TableId := Nat
abbrev OrderId := Nat
abbrev UserId := Nat
abbrev IdemKey := Nat
abbrev RestaurantId := Nat

/-- An order line's embedded modifier `{ modifierId, name, price }`. -/
structure Modifier where
  modifierId : Nat
  name : String
  price : ℚ
deriving DecidableEq, Repr

/-- One order line (`order.items[i]`): resolved name and unit price, the
modifier list, quantity, per-line discount, and the subdocument `_id`
(used by splitItemsToNewOrder's `itemIds` selection). `menuItem` is
`none` for ad-hoc lines. -/
structure OrderItem where
  menuItem : Option MenuId
  name : String
  variantId : Option Nat
  modifiers : List Modifier
  qty : ℚ
  price : ℚ
  discount : ℚ
  lineId : Option Nat
deriving DecidableEq, Repr

structure Payment where
  amount : ℚ
deriving DecidableEq, Repr

structure Refund where
  amount : ℚ
deriving DecidableEq, Repr

inductive OrderStatus
  | pending | in_kitchen | served | completed | cancelled
deriving DecidableEq, Repr

/-- An order document.  `refunds` is `meta.refunds`, `mergedInto` is
`meta.mergedInto`, `splitFrom` is `meta.splitFrom`, `idempotencyKey` is
`meta.idempotencyKey`. -/
structure Order where
  oid : OrderId
  restaurant : RestaurantId
  table : Option TableId
  items : List OrderItem
  subtotal : ℚ
  taxTotal : ℚ
  discountTotal : ℚ
  serviceCharge : ℚ
  total : ℚ
  payments : List Payment
  status : OrderStatus
  idempotencyKey : Option IdemKey
  refunds : List Refund
  mergedInto : Option OrderId
  splitFrom : Option OrderId
  orderNumber : Nat
deriving DecidableEq, Repr

inductive TableStatus
  | available | occupied | reserved | disabled
deriving DecidableEq, Repr

/-- A table document. -/
structure Table where
  status : TableStatus
  currentOrder : Option OrderId
  mergedInto : Option TableId
deriving DecidableEq, Repr

/-- An inventory (stock) item document: the tracked flag and the mutable
aggregate `currentQty`. -/
structure InventoryItem where
  isTracked : Bool
  currentQty : ℚ
deriving DecidableEq, Repr

inductive MovementType
  | usage | adjustment
deriving DecidableEq, Repr

/-- An append-only StockMovement record (only the fields the claims are
about: the stock item, the signed change and the kind). -/
structure StockMovement where
  inventoryItem : StockId
  change : ℚ
  mtype : MovementType
deriving DecidableEq, Repr

/-- The persistent state touched by the engine. -/
structure DB where
  orders : List Order
  tables : TableId → Option Table
  inv : StockId → Option InventoryItem
  movements : List StockMovement

/-- A thrown service error: the `status` attached via
`Object.assign(new Error(msg), { status })` plus the message. -/
structure Err where
  status : Nat
  msg : String
deriving DecidableEq, Repr

/-! ## Pricing engine: recalculateTotals -/

/-- `(it.modifiers || []).reduce((s, m) => s + (m.price || 0), 0)` -/
def modifiersTotal (mods : List Modifier) : ℚ :=
  mods.foldl (fun s m => s + jsOr m.price 0) 0

/-- One line's contribution to the subtotal:
`line = (it.price + modTotal) * (it.qty || 1)` and the loop adds
`line - (it.discount || 0)`. -/
def lineContribution (it : OrderItem) : ℚ :=
  (it.price + modifiersTotal it.modifiers) * jsOr it.qty 1 - jsOr it.discount 0

/-- The subtotal loop of `recalculateTotals`. -/
def recalcSubtotal (items : List OrderItem) : ℚ :=
  items.foldl (fun s it => s + lineContribution it) 0

/-- `recalculateTotals(order)`: recomputes `subtotal` from the lines and
`total = subtotal + taxTotal + serviceCharge - discountTotal` from the
caller-supplied scalars (each read as `order.f || 0`). -/
def recalculateTotals (o : Order) : Order :=
  let subtotal := recalcSubtotal o.items
  let taxTotal := jsOr o.taxTotal 0
  let discountTotal := jsOr o.discountTotal 0
  let serviceCharge := jsOr o.serviceCharge 0
  let total := subtotal + taxTotal + serviceCharge - discountTotal
  { o with subtotal := subtotal, total := total }

theorem foldl_add_map {α : Type} (f : α → ℚ) (l : List α) :
    ∀ s : ℚ, l.foldl (fun a x => a + f x) s = s + (l.map f).sum := by
  induction l with
  | nil => intro s; simp
  | cons x xs ih => intro s; simp only [List.foldl_cons, List.map_cons, List.sum_cons, ih]; ring

theorem modifiersTotal_eq_sum (mods : List Modifier) :
    modifiersTotal mods = (mods.map Modifier.price).sum := by
  unfold modifiersTotal
  have h := foldl_add_map (fun m : Modifier => jsOr m.price 0) mods 0
  simpa using h

theorem recalcSubtotal_eq_sum (items : List OrderItem) :
    recalcSubtotal items = (items.map lineContribution).sum := by
  unfold recalcSubtotal
  have h := foldl_add_map lineContribution items 0
  simpa using h

theorem recalcSubtotal_append (l₁ l₂ : List OrderItem) :
    recalcSubtotal (l₁ ++ l₂) = recalcSubtotal l₁ + recalcSubtotal l₂ := by
  simp [recalcSubtotal_eq_sum]

/-- Claim C1: for every order state whose lines have a (non-zero) quantity,
`recalculateTotals` sets `subtotal` to the sum over the lines of
`(unitPrice + sum of modifier prices) * quantity - discount`, and sets
`total` to `subtotal + taxTotal + serviceCharge - discountTotal`, exactly. -/
theorem recalculateTotals_spec (o : Order) (hq : ∀ it ∈ o.items, it.qty ≠ 0) :
    (recalculateTotals o).subtotal =
      (o.items.map (fun it =>
        (it.price + (it.modifiers.map Modifier.price).sum) * it.qty - it.discount)).sum ∧
    (recalculateTotals o).total =
      (recalculateTotals o).subtotal + o.taxTotal + o.serviceCharge - o.discountTotal := by
  constructor
  · show recalcSubtotal o.items = _
    rw [recalcSubtotal_eq_sum]
    congr 1
    apply List.map_congr_left
    intro it hit
    unfold lineContribution
    rw [modifiersTotal_eq_sum, jsOr_of_ne it.qty 1 (hq it hit), jsOr_zero]
  · show recalcSubtotal o.items + jsOr o.taxTotal 0 + jsOr o.serviceCharge 0 -
        jsOr o.discountTotal 0 = recalcSubtotal o.items + _ + _ - _
    rw [jsOr_zero, jsOr_zero, jsOr_zero]

/-- A concrete order used by the C1 witness: one line of unit price 250,
one modifier of price 10, quantity 2, discount 20; tax 30, service 5,
discount total 15. -/
def exOrderC1 : Order :=
  { oid := 1, restaurant := 1, table := none,
    items := [{ menuItem := some 1, name := "Pulao", variantId := none,
                modifiers := [{ modifierId := 1, name := "extra", price := 10 }],
                qty := 2, price := 250, discount := 20, lineId := none }],
    subtotal := 0, taxTotal := 30, discountTotal := 15, serviceCharge := 5,
    total := 0, payments := [], status := .pending, idempotencyKey := none,
    refunds := [], mergedInto := none, splitFrom := none, orderNumber := 1 }

/-- Witness for C1 at the concrete order `exOrderC1`. -/
theorem recalculateTotals_spec_witness :
    (∀ it ∈ exOrderC1.items, it.qty ≠ 0) ∧
    (recalculateTotals exOrderC1).subtotal = ((250 + 10) * 2 - 20 : ℚ) := by
  refine ⟨by decide, ?_⟩
  have h := (recalculateTotals_spec exOrderC1 (by decide)).1
  rw [h]
  norm_num [exOrderC1]

/-! ## Catalog -/

structure Variant where
  vid : Nat
  price : ℚ
deriving DecidableEq, Repr

structure MenuModifier where
  mid : Nat
  name : String
  price : ℚ
deriving DecidableEq, Repr

/-- One `meta.recipe` rule of a menu item: `{ inventoryItemId, qty }`
(the id can be absent — the calculator skips such rules). -/
structure RecipeRule where
  inventoryItemId : Option StockId
  qty : ℚ
deriving DecidableEq, Repr

/-- A menu item document (the fields the engine reads). `recipe` models
`meta.recipe`, defaulting to the empty list when absent. -/
structure MenuItem where
  name : String
  isActive : Bool
  basePrice : ℚ
  variants : List Variant
  modifiers : List MenuModifier
  recipe : List RecipeRule
deriving DecidableEq, Repr

/-- The catalog store, read in batch by the services. -/
abbrev Catalog := MenuId → Option MenuItem

/-! ## Consumption calculator

JavaScript `Map` objects are association lists with `Map.set` semantics:
replace an existing key in place, otherwise append. -/

abbrev ConsumptionMap := List (StockId × ℚ)

/-- `map.get(k) || 0`. -/
def mapGet : ConsumptionMap → StockId → ℚ
  | [], _ => 0
  | e :: rest, k => if e.1 = k then e.2 else mapGet rest k

/-- `map.set(k, v)`. -/
def mapSet : ConsumptionMap → StockId → ℚ → ConsumptionMap
  | [], k, v => [(k, v)]
  | e :: rest, k, v => if e.1 = k then (k, v) :: rest else e :: mapSet rest k v

def keysOf (m : ConsumptionMap) : List StockId := m.map Prod.fst

/-- One step of the inner recipe loop: `if (!r.inventoryItemId) continue;`
then `map.set(key, (map.get(key) || 0) + (r.qty || 0) * qty)`. -/
def consumeRule (qty : ℚ) (acc : ConsumptionMap) (r : RecipeRule) : ConsumptionMap :=
  match r.inventoryItemId with
  | none => acc
  | some key => mapSet acc key (mapGet acc key + jsOr r.qty 0 * qty)

/-- The inner recipe loop (`for (const r of recipe)`). -/
def consumeRecipe : List RecipeRule → ℚ → ConsumptionMap → ConsumptionMap
  | [], _, m => m
  | r :: rest, qty, m => consumeRecipe rest qty (consumeRule qty m r)

theorem consumeRule_none (qty : ℚ) (m : ConsumptionMap) (r : RecipeRule)
    (hr : r.inventoryItemId = none) : consumeRule qty m r = m := by
  unfold consumeRule; rw [hr]

theorem consumeRule_some (qty : ℚ) (m : ConsumptionMap) (r : RecipeRule) (key : StockId)
    (hr : r.inventoryItemId = some key) :
    consumeRule qty m r = mapSet m key (mapGet m key + jsOr r.qty 0 * qty) := by
  unfold consumeRule; rw [hr]

/-- Expansion of one (possibly unresolved) menu document: a missing
document contributes nothing. -/
def consumeMenu (menu? : Option MenuItem) (qtyMult : ℚ) (m : ConsumptionMap) : ConsumptionMap :=
  match menu? with
  | none => m
  | some menu => consumeRecipe menu.recipe qtyMult m

/-- One item's step of `computeConsumptionsFromMenus`: the lookup
`menuDocs[String(it.menuItem)]` misses both for ad-hoc lines and for
unresolved menu ids (`if (!menu) continue`); multiplier `it.qty || 1`. -/
def consumeItem (cat : Catalog) (m : ConsumptionMap) (it : OrderItem) : ConsumptionMap :=
  consumeMenu (it.menuItem.bind cat) (jsOr it.qty 1) m

/-- `computeConsumptionsFromMenus(menuDocs, validatedItems)`. -/
def computeConsumptionsFromMenus (cat : Catalog) (items : List OrderItem) : ConsumptionMap :=
  items.foldl (consumeItem cat) []

/-- `menu && menu.meta && Array.isArray(menu.meta.recipe) ? menu.meta.recipe : []`. -/
def recipeOfMenu (menu? : Option MenuItem) : List RecipeRule :=
  match menu? with
  | none => []
  | some menu => menu.recipe

/-- One item's step of `buildConsumptionMap` (the local helper of
`updateOrderItems`): skips items without a `menuItem` reference, reads the
recipe with an empty-list default, multiplier `it.qty || 1`. -/
def buildItemStep (cat : Catalog) (m : ConsumptionMap) (it : OrderItem) : ConsumptionMap :=
  match it.menuItem with
  | none => m
  | some mid => consumeRecipe (recipeOfMenu (cat mid)) (jsOr it.qty 1) m

/-- `buildConsumptionMap(menuDocsMap, itemsArr)` of `updateOrderItems`. -/
def buildConsumptionMap (cat : Catalog) (items : List OrderItem) : ConsumptionMap :=
  items.foldl (buildItemStep cat) []

theorem buildItemStep_eq (cat : Catalog) (m : ConsumptionMap) (it : OrderItem) :
    buildItemStep cat m it = consumeItem cat m it := by
  unfold buildItemStep consumeItem
  cases hm : it.menuItem with
  | none => rfl
  | some mid =>
    show consumeRecipe (recipeOfMenu (cat mid)) (jsOr it.qty 1) m =
      consumeMenu (cat mid) (jsOr it.qty 1) m
    cases hc : cat mid with
    | none => rfl
    | some menu => rfl

theorem buildConsumptionMap_eq (cat : Catalog) (items : List OrderItem) :
    buildConsumptionMap cat items = computeConsumptionsFromMenus cat items := by
  unfold buildConsumptionMap computeConsumptionsFromMenus
  congr 1
  funext m it
  exact buildItemStep_eq cat m it

/-- `new Set([...old.keys(), ...new.keys()])` in iteration order. -/
def jsKeySet (old new : ConsumptionMap) : List StockId :=
  (keysOf old ++ keysOf new).foldl (fun acc k => if k ∈ acc then acc else acc ++ [k]) []

/-- Step 5 of `updateOrderItems`: `delta = new - old` over the union of
keys, omitting zero entries. -/
def deltaEntries (old new : ConsumptionMap) : ConsumptionMap :=
  (jsKeySet old new).filterMap fun k =>
    let d := mapGet new k - mapGet old k
    if d ≠ 0 then some (k, d) else none

/-! ### Map lemmas -/

theorem keysOf_nil : keysOf [] = [] := rfl

theorem keysOf_cons (e : StockId × ℚ) (rest : ConsumptionMap) :
    keysOf (e :: rest) = e.1 :: keysOf rest := rfl

theorem mapGet_mapSet (m : ConsumptionMap) (k : StockId) (v : ℚ) (k' : StockId) :
    mapGet (mapSet m k v) k' = if k' = k then v else mapGet m k' := by
  induction m with
  | nil =>
    simp only [mapSet, mapGet]
    rcases eq_or_ne k' k with h | h
    · rw [if_pos h.symm, if_pos h]
    · rw [if_neg (fun hh => h hh.symm), if_neg h]
  | cons e rest ih =>
    simp only [mapSet]
    rcases eq_or_ne e.1 k with he | he
    · rw [if_pos he]
      simp only [mapGet]
      rcases eq_or_ne k' k with h | h
      · rw [if_pos h.symm, if_pos h]
      · have h2 : ¬ (e.1 = k') := by rw [he]; exact fun hh => h hh.symm
        rw [if_neg (fun hh => h hh.symm), if_neg h, if_neg h2]
    · rw [if_neg he]
      simp only [mapGet, ih]
      rcases eq_or_ne e.1 k' with h2 | h2
      · have hne : ¬ (k' = k) := by rw [← h2]; exact he
        rw [if_pos h2, if_neg hne, if_pos h2]
      · rw [if_neg h2]
        rcases eq_or_ne k' k with h | h
        · rw [if_pos h, if_pos h]
        · rw [if_neg h, if_neg h, if_neg h2]

theorem keysOf_mapSet (m : ConsumptionMap) (k : StockId) (v : ℚ) :
    keysOf (mapSet m k v) =
      if k ∈ keysOf m then keysOf m else keysOf m ++ [k] := by
  induction m with
  | nil => simp [mapSet, keysOf]
  | cons e rest ih =>
    simp only [mapSet]
    rcases eq_or_ne e.1 k with he | he
    · rw [if_pos he, keysOf_cons, keysOf_cons,
        if_pos (List.mem_cons.mpr (Or.inl he.symm)), he]
    · rw [if_neg he, keysOf_cons, keysOf_cons, ih]
      by_cases hm : k ∈ keysOf rest
      · rw [if_pos hm, if_pos (List.mem_cons.mpr (Or.inr hm))]
      · have hnc : k ∉ e.1 :: keysOf rest := by
          rw [List.mem_cons]
          push_neg
          exact ⟨fun h => he h.symm, hm⟩
        rw [if_neg hm, if_neg hnc, List.cons_append]

theorem nodup_keysOf_mapSet (m : ConsumptionMap) (k : StockId) (v : ℚ)
    (h : (keysOf m).Nodup) : (keysOf (mapSet m k v)).Nodup := by
  rw [keysOf_mapSet]
  by_cases hm : k ∈ keysOf m
  · rw [if_pos hm]; exact h
  · rw [if_neg hm]
    simp [List.nodup_append, h, hm]

theorem nodup_keysOf_consumeRule (qty : ℚ) (m : ConsumptionMap) (r : RecipeRule)
    (h : (keysOf m).Nodup) : (keysOf (consumeRule qty m r)).Nodup := by
  cases hr : r.inventoryItemId with
  | none => rw [consumeRule_none qty m r hr]; exact h
  | some key => rw [consumeRule_some qty m r key hr]; exact nodup_keysOf_mapSet _ _ _ h

theorem nodup_keysOf_consumeRecipe (recipe : List RecipeRule) (qty : ℚ) (m : ConsumptionMap)
    (h : (keysOf m).Nodup) : (keysOf (consumeRecipe recipe qty m)).Nodup := by
  induction recipe generalizing m with
  | nil => exact h
  | cons r rest ih =>
    simp only [consumeRecipe]
    exact ih _ (nodup_keysOf_consumeRule qty m r h)

theorem nodup_keysOf_consumeMenu (menu? : Option MenuItem) (q : ℚ) (m : ConsumptionMap)
    (h : (keysOf m).Nodup) : (keysOf (consumeMenu menu? q m)).Nodup := by
  cases menu? with
  | none => exact h
  | some menu => exact nodup_keysOf_consumeRecipe _ _ _ h

theorem nodup_keysOf_foldl_consumeItem (cat : Catalog) (items : List OrderItem)
    (m : ConsumptionMap) (h : (keysOf m).Nodup) :
    (keysOf (items.foldl (consumeItem cat) m)).Nodup := by
  induction items generalizing m with
  | nil => exact h
  | cons it rest ih =>
    simp only [List.foldl_cons]
    exact ih _ (nodup_keysOf_consumeMenu _ _ _ h)

theorem nodup_keysOf_compute (cat : Catalog) (items : List OrderItem) :
    (keysOf (computeConsumptionsFromMenus cat items)).Nodup :=
  nodup_keysOf_foldl_consumeItem cat items [] (by simp [keysOf])

theorem mapGet_eq_zero_of_not_mem (m : ConsumptionMap) (k : StockId)
    (h : k ∉ keysOf m) : mapGet m k = 0 := by
  induction m with
  | nil => rfl
  | cons e rest ih =>
    rw [keysOf_cons, List.mem_cons] at h
    push_neg at h
    simp only [mapGet]
    rw [if_neg (fun hh => h.1 hh.symm)]
    exact ih h.2

/-! ### Pointwise value of the expansion -/

/-- The pointwise contribution of one recipe rule to stock item `k`. -/
def ruleDelta (qty : ℚ) (k : StockId) (r : RecipeRule) : ℚ :=
  match r.inventoryItemId with
  | some key => if key = k then jsOr r.qty 0 * qty else 0
  | none => 0

theorem ruleDelta_none (qty : ℚ) (k : StockId) (r : RecipeRule)
    (hr : r.inventoryItemId = none) : ruleDelta qty k r = 0 := by
  unfold ruleDelta; rw [hr]

theorem ruleDelta_some (qty : ℚ) (k : StockId) (r : RecipeRule) (key : StockId)
    (hr : r.inventoryItemId = some key) :
    ruleDelta qty k r = if key = k then jsOr r.qty 0 * qty else 0 := by
  unfold ruleDelta; rw [hr]

/-- The pointwise contribution of one recipe to stock item `k`. -/
def recipeDelta (recipe : List RecipeRule) (qty : ℚ) (k : StockId) : ℚ :=
  (recipe.map (ruleDelta qty k)).sum

theorem recipeDelta_cons (r : RecipeRule) (rest : List RecipeRule) (qty : ℚ) (k : StockId) :
    recipeDelta (r :: rest) qty k = ruleDelta qty k r + recipeDelta rest qty k := by
  simp [recipeDelta]

/-- The pointwise contribution of one order line to stock item `k`. -/
def itemDelta (cat : Catalog) (it : OrderItem) (k : StockId) : ℚ :=
  match it.menuItem.bind cat with
  | none => 0
  | some menu => recipeDelta menu.recipe (jsOr it.qty 1) k

theorem mapGet_consumeRecipe (recipe : List RecipeRule) (qty : ℚ) (m : ConsumptionMap)
    (k : StockId) :
    mapGet (consumeRecipe recipe qty m) k = mapGet m k + recipeDelta recipe qty k := by
  induction recipe generalizing m with
  | nil => simp [consumeRecipe, recipeDelta]
  | cons r rest ih =>
    simp only [consumeRecipe]
    rw [ih, recipeDelta_cons]
    cases hr : r.inventoryItemId with
    | none =>
      rw [consumeRule_none qty m r hr, ruleDelta_none qty k r hr]
      ring
    | some key =>
      rw [consumeRule_some qty m r key hr, ruleDelta_some qty k r key hr, mapGet_mapSet]
      rcases eq_or_ne k key with hk | hk
      · subst hk
        rw [if_pos rfl, if_pos rfl]
        ring
      · rw [if_neg hk, if_neg (fun hh => hk hh.symm)]
        ring

theorem mapGet_consumeMenu (menu? : Option MenuItem) (q : ℚ) (m : ConsumptionMap)
    (k : StockId) :
    mapGet (consumeMenu menu? q m) k =
      mapGet m k + (match menu? with
        | none => 0
        | some menu => recipeDelta menu.recipe q k) := by
  cases menu? with
  | none => simp [consumeMenu]
  | some menu => exact mapGet_consumeRecipe _ _ _ _

theorem mapGet_consumeItem (cat : Catalog) (m : ConsumptionMap) (it : OrderItem)
    (k : StockId) :
    mapGet (consumeItem cat m it) k = mapGet m k + itemDelta cat it k := by
  unfold consumeItem itemDelta
  rw [mapGet_consumeMenu]

theorem mapGet_foldl_consumeItem (cat : Catalog) (items : List OrderItem)
    (m : ConsumptionMap) (k : StockId) :
    mapGet (items.foldl (consumeItem cat) m) k =
      mapGet m k + (items.map (fun it => itemDelta cat it k)).sum := by
  induction items generalizing m with
  | nil => simp
  | cons it rest ih =>
    simp only [List.foldl_cons, List.map_cons, List.sum_cons]
    rw [ih, mapGet_consumeItem]
    ring

theorem mapGet_compute (cat : Catalog) (items : List OrderItem) (k : StockId) :
    mapGet (computeConsumptionsFromMenus cat items) k =
      (items.map (fun it => itemDelta cat it k)).sum := by
  unfold computeConsumptionsFromMenus
  rw [mapGet_foldl_consumeItem]
  simp [mapGet]

theorem mapGet_compute_append (cat : Catalog) (l₁ l₂ : List OrderItem) (k : StockId) :
    mapGet (computeConsumptionsFromMenus cat (l₁ ++ l₂)) k =
      mapGet (computeConsumptionsFromMenus cat l₁) k +
      mapGet (computeConsumptionsFromMenus cat l₂) k := by
  simp [mapGet_compute]

/-! ## Inventory ledger: applying consumption entries

`applyConsumptions` (create / addItems) and step 6 of `updateOrderItems`
both turn a consumption map into `$inc` bulk updates on tracked inventory
items.  The folds below are those loops' effect on the inventory store. -/

def invUpdate (inv : StockId → Option InventoryItem) (k : StockId) (v : InventoryItem) :
    StockId → Option InventoryItem :=
  fun x => if x = k then some v else inv x

/-- Effect of one `applyConsumptions` entry on the inventory store: if the
item is tracked, `$inc: { currentQty: -qty }`; untracked (or unresolved)
items are left alone. -/
def usageStep (inv : StockId → Option InventoryItem) (e : StockId × ℚ) :
    StockId → Option InventoryItem :=
  match inv e.1 with
  | none => inv
  | some i =>
    if i.isTracked then invUpdate inv e.1 { i with currentQty := i.currentQty - e.2 }
    else inv

/-- The inventory effect of `applyConsumptions`' bulk write. -/
def applyUsageInv : (StockId → Option InventoryItem) → ConsumptionMap →
    (StockId → Option InventoryItem)
  | inv, [] => inv
  | inv, e :: rest => applyUsageInv (usageStep inv e) rest

/-- Effect of one `updateOrderItems` delta entry on the inventory store:
`delta > 0` decrements tracked items by the delta, `delta < 0` increments
tracked items by `Math.abs(delta)`. -/
def deltaStep (inv : StockId → Option InventoryItem) (e : StockId × ℚ) :
    StockId → Option InventoryItem :=
  match inv e.1 with
  | none => inv
  | some i =>
    if 0 < e.2 then
      if i.isTracked then invUpdate inv e.1 { i with currentQty := i.currentQty - e.2 }
      else inv
    else if e.2 < 0 then
      if i.isTracked then invUpdate inv e.1 { i with currentQty := i.currentQty + |e.2| }
      else inv
    else inv

/-- The inventory effect of `updateOrderItems`' delta bulk write. -/
def applyDeltaInv : (StockId → Option InventoryItem) → ConsumptionMap →
    (StockId → Option InventoryItem)
  | inv, [] => inv
  | inv, e :: rest => applyDeltaInv (deltaStep inv e) rest

/-- The current quantity recorded for stock item `k` (0 when absent). -/
def qtyAt (inv : StockId → Option InventoryItem) (k : StockId) : ℚ :=
  match inv k with
  | some i => i.currentQty
  | none => 0

/-- Whether stock item `k` exists and is tracked. -/
def trackedAt (inv : StockId → Option InventoryItem) (k : StockId) : Bool :=
  match inv k with
  | some i => i.isTracked
  | none => false

/-- Total of the entries for key `k` in an entry list. -/
def entriesTotal (entries : ConsumptionMap) (k : StockId) : ℚ :=
  (entries.map (fun e => if e.1 = k then e.2 else 0)).sum

theorem entriesTotal_nil (k : StockId) : entriesTotal [] k = 0 := rfl

theorem entriesTotal_cons (e : StockId × ℚ) (rest : ConsumptionMap) (k : StockId) :
    entriesTotal (e :: rest) k = (if e.1 = k then e.2 else 0) + entriesTotal rest k := by
  simp [entriesTotal]

theorem usageStep_none (inv : StockId → Option InventoryItem) (e : StockId × ℚ)
    (h : inv e.1 = none) : usageStep inv e = inv := by
  unfold usageStep; rw [h]

theorem usageStep_some (inv : StockId → Option InventoryItem) (e : StockId × ℚ)
    (i : InventoryItem) (h : inv e.1 = some i) :
    usageStep inv e =
      if i.isTracked then invUpdate inv e.1 { i with currentQty := i.currentQty - e.2 }
      else inv := by
  unfold usageStep; rw [h]

theorem deltaStep_none (inv : StockId → Option InventoryItem) (e : StockId × ℚ)
    (h : inv e.1 = none) : deltaStep inv e = inv := by
  unfold deltaStep; rw [h]

theorem deltaStep_some (inv : StockId → Option InventoryItem) (e : StockId × ℚ)
    (i : InventoryItem) (h : inv e.1 = some i) :
    deltaStep inv e =
      if 0 < e.2 then
        if i.isTracked then invUpdate inv e.1 { i with currentQty := i.currentQty - e.2 }
        else inv
      else if e.2 < 0 then
        if i.isTracked then invUpdate inv e.1 { i with currentQty := i.currentQty + |e.2| }
        else inv
      else inv := by
  unfold deltaStep; rw [h]

theorem qtyAt_invUpdate (inv : StockId → Option InventoryItem) (k : StockId)
    (v : InventoryItem) (k' : StockId) :
    qtyAt (invUpdate inv k v) k' = if k' = k then v.currentQty else qtyAt inv k' := by
  unfold qtyAt invUpdate
  rcases eq_or_ne k' k with h | h
  · rw [if_pos h, if_pos h]
  · rw [if_neg h, if_neg h]

theorem trackedAt_invUpdate (inv : StockId → Option InventoryItem) (k : StockId)
    (v : InventoryItem) (k' : StockId) :
    trackedAt (invUpdate inv k v) k' = if k' = k then v.isTracked else trackedAt inv k' := by
  unfold trackedAt invUpdate
  rcases eq_or_ne k' k with h | h
  · rw [if_pos h, if_pos h]
  · rw [if_neg h, if_neg h]

theorem trackedAt_of_eq (inv : StockId → Option InventoryItem) (k : StockId)
    (i : InventoryItem) (h : inv k = some i) : trackedAt inv k = i.isTracked := by
  unfold trackedAt; rw [h]

theorem qtyAt_of_eq (inv : StockId → Option InventoryItem) (k : StockId)
    (i : InventoryItem) (h : inv k = some i) : qtyAt inv k = i.currentQty := by
  unfold qtyAt; rw [h]

theorem trackedAt_usageStep (inv : StockId → Option InventoryItem) (e : StockId × ℚ)
    (k : StockId) : trackedAt (usageStep inv e) k = trackedAt inv k := by
  cases h : inv e.1 with
  | none => rw [usageStep_none inv e h]
  | some i =>
    rw [usageStep_some inv e i h]
    by_cases ht : i.isTracked
    · rw [if_pos ht, trackedAt_invUpdate]
      rcases eq_or_ne k e.1 with hk | hk
      · rw [if_pos hk, hk, trackedAt_of_eq inv e.1 i h]
      · rw [if_neg hk]
    · rw [if_neg ht]

theorem qtyAt_usageStep (inv : StockId → Option InventoryItem) (e : StockId × ℚ)
    (k : StockId) :
    qtyAt (usageStep inv e) k =
      qtyAt inv k - (if trackedAt inv k = true ∧ e.1 = k then e.2 else 0) := by
  cases h : inv e.1 with
  | none =>
    rw [usageStep_none inv e h]
    rcases eq_or_ne e.1 k with hk | hk
    · have ht : trackedAt inv k = false := by unfold trackedAt; rw [← hk, h]
      simp [ht]
    · simp [hk]
  | some i =>
    rw [usageStep_some inv e i h]
    by_cases ht : i.isTracked
    · rw [if_pos ht, qtyAt_invUpdate]
      rcases eq_or_ne k e.1 with hk | hk
      · rw [if_pos hk, hk, qtyAt_of_eq inv e.1 i h,
          if_pos ⟨by rw [trackedAt_of_eq inv e.1 i h, ht], rfl⟩]
      · rw [if_neg hk, if_neg (fun hc => hk hc.2.symm)]
        ring
    · rw [if_neg ht]
      have htk : ¬ (trackedAt inv k = true ∧ e.1 = k) := by
        rintro ⟨h1, h2⟩
        rw [← h2, trackedAt_of_eq inv e.1 i h] at h1
        exact ht h1
      rw [if_neg htk]
      ring

theorem trackedAt_deltaStep (inv : StockId → Option InventoryItem) (e : StockId × ℚ)
    (k : StockId) : trackedAt (deltaStep inv e) k = trackedAt inv k := by
  cases h : inv e.1 with
  | none => rw [deltaStep_none inv e h]
  | some i =>
    rw [deltaStep_some inv e i h]
    rcases lt_trichotomy (0 : ℚ) e.2 with hs | hs | hs
    · rw [if_pos hs]
      by_cases ht : i.isTracked
      · rw [if_pos ht, trackedAt_invUpdate]
        rcases eq_or_ne k e.1 with hk | hk
        · rw [if_pos hk, hk, trackedAt_of_eq inv e.1 i h]
        · rw [if_neg hk]
      · rw [if_neg ht]
    · rw [if_neg (by rw [← hs]; exact lt_irrefl 0), if_neg (by rw [← hs]; exact lt_irrefl 0)]
    · rw [if_neg (not_lt.mpr (le_of_lt hs)), if_pos hs]
      by_cases ht : i.isTracked
      · rw [if_pos ht, trackedAt_invUpdate]
        rcases eq_or_ne k e.1 with hk | hk
        · rw [if_pos hk, hk, trackedAt_of_eq inv e.1 i h]
        · rw [if_neg hk]
      · rw [if_neg ht]

theorem qtyAt_deltaStep (inv : StockId → Option InventoryItem) (e : StockId × ℚ)
    (k : StockId) :
    qtyAt (deltaStep inv e) k =
      qtyAt inv k - (if trackedAt inv k = true ∧ e.1 = k then e.2 else 0) := by
  cases h : inv e.1 with
  | none =>
    rw [deltaStep_none inv e h]
    rcases eq_or_ne e.1 k with hk | hk
    · have ht : trackedAt inv k = false := by unfold trackedAt; rw [← hk, h]
      simp [ht]
    · simp [hk]
  | some i =>
    rw [deltaStep_some inv e i h]
    by_cases ht : i.isTracked
    · rcases lt_trichotomy (0 : ℚ) e.2 with hs | hs | hs
      · rw [if_pos hs, if_pos ht, qtyAt_invUpdate]
        rcases eq_or_ne k e.1 with hk | hk
        · rw [if_pos hk, hk, qtyAt_of_eq inv e.1 i h,
            if_pos ⟨by rw [trackedAt_of_eq inv e.1 i h, ht], rfl⟩]
        · rw [if_neg hk, if_neg (fun hc => hk hc.2.symm)]
          ring
      · rw [if_neg (by rw [← hs]; exact lt_irrefl 0), if_neg (by rw [← hs]; exact lt_irrefl 0)]
        have : (if trackedAt inv k = true ∧ e.1 = k then e.2 else 0) = 0 := by
          split
          · rw [← hs]
          · rfl
        rw [this]
        ring
      · rw [if_neg (not_lt.mpr (le_of_lt hs)), if_pos hs, if_pos ht, qtyAt_invUpdate]
        rcases eq_or_ne k e.1 with hk | hk
        · rw [if_pos hk, hk, qtyAt_of_eq inv e.1 i h,
            if_pos ⟨by rw [trackedAt_of_eq inv e.1 i h, ht], rfl⟩,
            abs_of_neg hs]
          ring
        · rw [if_neg hk, if_neg (fun hc => hk hc.2.symm)]
          ring
    · have htk : ¬ (trackedAt inv k = true ∧ e.1 = k) := by
        rintro ⟨h1, h2⟩
        rw [← h2, trackedAt_of_eq inv e.1 i h] at h1
        exact ht h1
      rw [if_neg htk]
      rcases lt_trichotomy (0 : ℚ) e.2 with hs | hs | hs
      · rw [if_pos hs, if_neg ht]; ring
      · rw [if_neg (by rw [← hs]; exact lt_irrefl 0), if_neg (by rw [← hs]; exact lt_irrefl 0)]
        ring
      · rw [if_neg (not_lt.mpr (le_of_lt hs)), if_pos hs, if_neg ht]; ring

theorem trackedAt_applyUsageInv (entries : ConsumptionMap)
    (inv : StockId → Option InventoryItem) (k : StockId) :
    trackedAt (applyUsageInv inv entries) k = trackedAt inv k := by
  induction entries generalizing inv with
  | nil => rfl
  | cons e rest ih =>
    simp only [applyUsageInv]
    rw [ih, trackedAt_usageStep]

theorem trackedAt_applyDeltaInv (entries : ConsumptionMap)
    (inv : StockId → Option InventoryItem) (k : StockId) :
    trackedAt (applyDeltaInv inv entries) k = trackedAt inv k := by
  induction entries generalizing inv with
  | nil => rfl
  | cons e rest ih =>
    simp only [applyDeltaInv]
    rw [ih, trackedAt_deltaStep]

theorem qtyAt_applyUsageInv (entries : ConsumptionMap)
    (inv : StockId → Option InventoryItem) (k : StockId) :
    qtyAt (applyUsageInv inv entries) k =
      qtyAt inv k - (if trackedAt inv k = true then entriesTotal entries k else 0) := by
  induction entries generalizing inv with
  | nil => simp [applyUsageInv, entriesTotal_nil]
  | cons e rest ih =>
    simp only [applyUsageInv]
    rw [ih, trackedAt_usageStep, qtyAt_usageStep, entriesTotal_cons]
    by_cases ht : trackedAt inv k = true
    · rcases eq_or_ne e.1 k with hk | hk
      · rw [if_pos ht, if_pos ⟨ht, hk⟩, if_pos ht, if_pos hk]
        ring
      · rw [if_pos ht, if_neg (fun hc => hk hc.2), if_pos ht, if_neg hk]
        ring
    · rw [if_neg ht, if_neg (fun hc => ht hc.1), if_neg ht]
      ring

theorem qtyAt_applyDeltaInv (entries : ConsumptionMap)
    (inv : StockId → Option InventoryItem) (k : StockId) :
    qtyAt (applyDeltaInv inv entries) k =
      qtyAt inv k - (if trackedAt inv k = true then entriesTotal entries k else 0) := by
  induction entries generalizing inv with
  | nil => simp [applyDeltaInv, entriesTotal_nil]
  | cons e rest ih =>
    simp only [applyDeltaInv]
    rw [ih, trackedAt_deltaStep, qtyAt_deltaStep, entriesTotal_cons]
    by_cases ht : trackedAt inv k = true
    · rcases eq_or_ne e.1 k with hk | hk
      · rw [if_pos ht, if_pos ⟨ht, hk⟩, if_pos ht, if_pos hk]
        ring
      · rw [if_pos ht, if_neg (fun hc => hk hc.2), if_pos ht, if_neg hk]
        ring
    · rw [if_neg ht, if_neg (fun hc => ht hc.1), if_neg ht]
      ring

/-! ### The union-of-keys set and the delta map -/

theorem mem_jsDedup (l : List StockId) :
    ∀ (acc : List StockId) (x : StockId),
      x ∈ l.foldl (fun acc k => if k ∈ acc then acc else acc ++ [k]) acc ↔
        x ∈ acc ∨ x ∈ l := by
  induction l with
  | nil => intro acc x; simp
  | cons k rest ih =>
    intro acc x
    simp only [List.foldl_cons]
    by_cases hk : k ∈ acc
    · rw [if_pos hk, ih]
      constructor
      · rintro (h | h)
        · exact Or.inl h
        · exact Or.inr (List.mem_cons_of_mem _ h)
      · rintro (h | h)
        · exact Or.inl h
        · rcases List.mem_cons.mp h with h | h
          · subst h; exact Or.inl hk
          · exact Or.inr h
    · rw [if_neg hk, ih]
      simp only [List.mem_append, List.mem_singleton, List.mem_cons]
      tauto

theorem nodup_jsDedup (l : List StockId) :
    ∀ acc : List StockId, acc.Nodup →
      (l.foldl (fun acc k => if k ∈ acc then acc else acc ++ [k]) acc).Nodup := by
  induction l with
  | nil => intro acc h; exact h
  | cons k rest ih =>
    intro acc h
    simp only [List.foldl_cons]
    by_cases hk : k ∈ acc
    · rw [if_pos hk]; exact ih acc h
    · rw [if_neg hk]
      exact ih (acc ++ [k]) (by simp [List.nodup_append, h, hk])

theorem mem_jsKeySet (old new : ConsumptionMap) (x : StockId) :
    x ∈ jsKeySet old new ↔ x ∈ keysOf old ∨ x ∈ keysOf new := by
  unfold jsKeySet
  rw [mem_jsDedup]
  simp [List.mem_append]

theorem nodup_jsKeySet (old new : ConsumptionMap) : (jsKeySet old new).Nodup :=
  nodup_jsDedup _ [] List.nodup_nil

theorem entriesTotal_filterMap_not_mem (D : StockId → ℚ) (keys : List StockId) (k : StockId)
    (h : k ∉ keys) :
    entriesTotal (keys.filterMap (fun j => if D j ≠ 0 then some (j, D j) else none)) k = 0 := by
  induction keys with
  | nil => rfl
  | cons j rest ih =>
    rw [List.mem_cons] at h
    push_neg at h
    by_cases hD : D j ≠ 0
    · have hs : (fun x => if D x ≠ 0 then some (x, D x) else none) j = some (j, D j) := by
        show (if D j ≠ 0 then some (j, D j) else none) = some (j, D j)
        rw [if_pos hD]
      rw [@List.filterMap_cons_some _ _ (fun x => if D x ≠ 0 then some (x, D x) else none)
        j rest (j, D j) hs, entriesTotal_cons]
      rw [if_neg (fun hh : j = k => h.1 hh.symm), ih h.2]
      ring
    · have hs : (fun x => if D x ≠ 0 then some (x, D x) else none) j = none := by
        show (if D j ≠ 0 then some (j, D j) else none) = none
        rw [if_neg hD]
      rw [@List.filterMap_cons_none _ _ (fun x => if D x ≠ 0 then some (x, D x) else none)
        j rest hs, ih h.2]

theorem entriesTotal_filterMap (D : StockId → ℚ) (keys : List StockId) (k : StockId)
    (hnd : keys.Nodup) :
    entriesTotal (keys.filterMap (fun j => if D j ≠ 0 then some (j, D j) else none)) k =
      if k ∈ keys then D k else 0 := by
  induction keys with
  | nil => rfl
  | cons j rest ih =>
    rw [List.nodup_cons] at hnd
    by_cases hD : D j ≠ 0
    · have hs : (fun x => if D x ≠ 0 then some (x, D x) else none) j = some (j, D j) := by
        show (if D j ≠ 0 then some (j, D j) else none) = some (j, D j)
        rw [if_pos hD]
      rw [@List.filterMap_cons_some _ _ (fun x => if D x ≠ 0 then some (x, D x) else none)
        j rest (j, D j) hs, entriesTotal_cons, ih hnd.2]
      rcases eq_or_ne k j with hk | hk
      · subst hk
        rw [if_pos rfl, if_neg hnd.1, if_pos (List.mem_cons_self _ _)]
        ring
      · rw [if_neg (fun hh : j = k => hk hh.symm)]
        rcases List.instDecidableMemOfLawfulBEq k rest with hm | hm
        · rw [if_neg hm, if_neg (by rw [List.mem_cons]; push_neg; exact ⟨hk, hm⟩)]
          ring
        · rw [if_pos hm, if_pos (List.mem_cons_of_mem _ hm)]
          ring
    · push_neg at hD
      have hs : (fun x => if D x ≠ 0 then some (x, D x) else none) j = none := by
        show (if D j ≠ 0 then some (j, D j) else none) = none
        rw [if_neg (by push_neg; exact hD)]
      rw [@List.filterMap_cons_none _ _ (fun x => if D x ≠ 0 then some (x, D x) else none)
        j rest hs, ih hnd.2]
      rcases eq_or_ne k j with hk | hk
      · subst hk
        rw [if_neg hnd.1, if_pos (List.mem_cons_self _ _), hD]
      · rcases List.instDecidableMemOfLawfulBEq k rest with hm | hm
        · rw [if_neg hm, if_neg (by rw [List.mem_cons]; push_neg; exact ⟨hk, hm⟩)]
        · rw [if_pos hm, if_pos (List.mem_cons_of_mem _ hm)]

theorem entriesTotal_deltaEntries (old new : ConsumptionMap) (k : StockId) :
    entriesTotal (deltaEntries old new) k = mapGet new k - mapGet old k := by
  unfold deltaEntries
  rw [entriesTotal_filterMap (fun j => mapGet new j - mapGet old j) _ k
    (nodup_jsKeySet old new)]
  by_cases hm : k ∈ jsKeySet old new
  · rw [if_pos hm]
  · rw [if_neg hm]
    rw [mem_jsKeySet] at hm
    push_neg at hm
    rw [mapGet_eq_zero_of_not_mem old k hm.1, mapGet_eq_zero_of_not_mem new k hm.2]
    ring

theorem entriesTotal_eq_mapGet (m : ConsumptionMap) (k : StockId)
    (h : (keysOf m).Nodup) : entriesTotal m k = mapGet m k := by
  induction m with
  | nil => rfl
  | cons e rest ih =>
    rw [keysOf_cons, List.nodup_cons] at h
    rw [entriesTotal_cons]
    simp only [mapGet]
    rcases eq_or_ne e.1 k with hk | hk
    · rw [if_pos hk, if_pos hk, ih h.2, mapGet_eq_zero_of_not_mem rest k (hk ▸ h.1)]
      ring
    · rw [if_neg hk, if_neg hk, ih h.2]
      ring

/-- Claim C3: delta-based inventory application is equivalent to absolute
application.  For the sequence create(L0) → addItems(A) →
updateOrderItems(F): create applies the full expansion of L0, addItems
applies the expansion of only the newly added lines Aical, and
updateOrderItems applies the signed delta of the expansion of the final
lines F against the expansion of the previous lines L0 ++ A (omitting zero
entries).  The resulting quantity of every tracked stock item equals what a
single create with the final line set F would have produced. -/
theorem delta_apply_equiv (cat : Catalog) (L0 A F : List OrderItem)
    (inv : StockId → Option InventoryItem) (k : StockId)
    (htr : trackedAt inv k = true) :
    qtyAt (applyDeltaInv
      (applyUsageInv (applyUsageInv inv (computeConsumptionsFromMenus cat L0))
        (computeConsumptionsFromMenus cat A))
      (deltaEntries (buildConsumptionMap cat (L0 ++ A)) (buildConsumptionMap cat F))) k
    = qtyAt (applyUsageInv inv (computeConsumptionsFromMenus cat F)) k := by
  rw [qtyAt_applyDeltaInv, qtyAt_applyUsageInv, qtyAt_applyUsageInv, qtyAt_applyUsageInv]
  simp only [trackedAt_applyUsageInv]
  rw [entriesTotal_deltaEntries, buildConsumptionMap_eq, buildConsumptionMap_eq,
    entriesTotal_eq_mapGet _ _ (nodup_keysOf_compute cat L0),
    entriesTotal_eq_mapGet _ _ (nodup_keysOf_compute cat A),
    entriesTotal_eq_mapGet _ _ (nodup_keysOf_compute cat F),
    mapGet_compute_append]
  simp only [if_pos htr]
  ring

/-- Concrete data for the C3 witness: menu 1 consumes 2 units of stock
item 7 per serving; stock item 7 is tracked with 100 units on hand. -/
def exCatC3 : Catalog := fun m =>
  if m = 1 then
    some { name := "Pulao", isActive := true, basePrice := 250, variants := [],
           modifiers := [], recipe := [{ inventoryItemId := some 7, qty := 2 }] }
  else none

def exInvC3 : StockId → Option InventoryItem := fun k =>
  if k = 7 then some { isTracked := true, currentQty := 100 } else none

def exLineC3 (q : ℚ) : OrderItem :=
  { menuItem := some 1, name := "Pulao", variantId := none, modifiers := [],
    qty := q, price := 250, discount := 0, lineId := none }

/-- Witness for C3: create with one line of qty 1, add a line of qty 2,
then replace everything by a single line of qty 3. -/
theorem delta_apply_equiv_witness :
    trackedAt exInvC3 7 = true ∧
    qtyAt (applyDeltaInv
      (applyUsageInv (applyUsageInv exInvC3 (computeConsumptionsFromMenus exCatC3 [exLineC3 1]))
        (computeConsumptionsFromMenus exCatC3 [exLineC3 2]))
      (deltaEntries (buildConsumptionMap exCatC3 ([exLineC3 1] ++ [exLineC3 2]))
        (buildConsumptionMap exCatC3 [exLineC3 3]))) 7
    = qtyAt (applyUsageInv exInvC3 (computeConsumptionsFromMenus exCatC3 [exLineC3 3])) 7 :=
  ⟨by decide, delta_apply_equiv exCatC3 [exLineC3 1] [exLineC3 2] [exLineC3 3] exInvC3 7
    (by decide)⟩

/-! ## Orchestrator: payload validation -/

/-- A requested modifier `{ modifierId?, name?, price? }`. -/
structure ModReq where
  modifierId : Option Nat
  name : Option String
  price : Option ℚ
deriving DecidableEq, Repr

/-- A requested order line of the create/addItems payload. -/
structure ItemReq where
  menuItem : MenuId
  variantId : Option Nat
  modifiers : Option (List ModReq)
  qty : ℚ
  discount : ℚ
deriving DecidableEq, Repr

/-- The createOrder payload (meta.idempotencyKey is lifted to a field). -/
structure CreatePayload where
  restaurant : RestaurantId
  table : Option TableId
  items : List ItemReq
  taxTotal : ℚ
  discountTotal : ℚ
  serviceCharge : ℚ
  payments : List Payment
  idempotencyKey : Option IdemKey
deriving DecidableEq, Repr

/-- Modifier resolution of createOrder: by id when `modifierId` is given,
else by name; missing resolution is a 400; the caller's price wins over
the catalog price when supplied (`m.price != null ? m.price : mod.price`). -/
def resolveModifierCreate (menu : MenuItem) (m : ModReq) : Except Err Modifier :=
  match (match m.modifierId with
    | some mid => menu.modifiers.find? (fun x : MenuModifier => x.mid == mid)
    | none =>
      match m.name with
      | some n => menu.modifiers.find? (fun x : MenuModifier => x.name == n)
      | none => none) with
  | none => .error ⟨400, "Modifier not found"⟩
  | some mo => .ok { modifierId := mo.mid, name := mo.name, price := m.price.getD mo.price }

/-- Unit price resolution: the variant price when a `variantId` is given
(404-free: an unknown variant is a 400), else the base price. -/
def resolveUnitPrice (menu : MenuItem) (variantId : Option Nat) : Except Err ℚ :=
  match variantId with
  | none => .ok menu.basePrice
  | some vid =>
    match menu.variants.find? (fun v : Variant => v.vid == vid) with
    | none => .error ⟨400, "Variant not found"⟩
    | some v => .ok v.price

/-- Line validation of createOrder: unknown or inactive menu is a 400;
`qty = (it.qty && it.qty > 0) ? it.qty : 1`. -/
def resolveItemCreate (cat : Catalog) (it : ItemReq) : Except Err OrderItem :=
  match cat it.menuItem with
  | none => .error ⟨400, "Menu not available"⟩
  | some menu =>
    if menu.isActive = false then .error ⟨400, "Menu not available"⟩
    else
      match resolveUnitPrice menu it.variantId with
      | .error e => .error e
      | .ok unitPrice =>
        match (it.modifiers.getD []).mapM (resolveModifierCreate menu) with
        | .error e => .error e
        | .ok mods =>
          .ok { menuItem := some it.menuItem, name := menu.name,
                variantId := it.variantId, modifiers := mods,
                qty := if 0 < it.qty then it.qty else 1,
                price := unitPrice, discount := it.discount, lineId := none }

/-! ## Orchestrator: createOrder -/

/-- `Order.findOne({ 'meta.idempotencyKey': key, restaurant })`. -/
def findByIdem (orders : List Order) (key : IdemKey) (r : RestaurantId) : Option Order :=
  orders.find? (fun o => o.idempotencyKey == some key && o.restaurant == r)

/-- The idempotency lookup of createOrder (runs only when the payload
carries an idempotency key; the restaurant is always present here). -/
def idemHit (db : DB) (p : CreatePayload) : Option Order :=
  match p.idempotencyKey with
  | none => none
  | some key => findByIdem db.orders key p.restaurant

def tablesUpdate (tables : TableId → Option Table) (t : TableId) (v : Table) :
    TableId → Option Table :=
  fun x => if x = t then some v else tables x

/-- The table-handling block of createOrder for a present table reference:
missing table is a 404, disabled is a 409, an available table is saved as
occupied; any other status (occupied, reserved) passes through unchanged
here. -/
def tableStepOn (db : DB) (t : TableId) : Except Err (TableId → Option Table) :=
  match db.tables t with
  | none => .error ⟨404, "Table not found"⟩
  | some td =>
    if td.status = .disabled then .error ⟨409, "Table disabled"⟩
    else if td.status = .available then
      .ok (tablesUpdate db.tables t { td with status := .occupied })
    else .ok db.tables

/-- The table-handling block of createOrder (`if (order.table) { ... }`). -/
def tableStep (db : DB) (t? : Option TableId) : Except Err (TableId → Option Table) :=
  match t? with
  | none => .ok db.tables
  | some t => tableStepOn db t

theorem tableStep_none (db : DB) (t? : Option TableId) (h : t? = none) :
    tableStep db t? = .ok db.tables := by
  unfold tableStep; rw [h]

theorem tableStep_some (db : DB) (t? : Option TableId) (t : TableId) (h : t? = some t) :
    tableStep db t? = tableStepOn db t := by
  unfold tableStep; rw [h]

theorem tableStepOn_missing (db : DB) (t : TableId) (h : db.tables t = none) :
    tableStepOn db t = .error ⟨404, "Table not found"⟩ := by
  unfold tableStepOn; rw [h]

theorem tableStepOn_found (db : DB) (t : TableId) (td : Table) (h : db.tables t = some td) :
    tableStepOn db t =
      if td.status = .disabled then .error ⟨409, "Table disabled"⟩
      else if td.status = .available then
        .ok (tablesUpdate db.tables t { td with status := .occupied })
      else .ok db.tables := by
  unfold tableStepOn; rw [h]

/-- The attach block of createOrder for a present table reference:
`tableDoc.currentOrder = orderDoc._id; tableDoc.status = 'occupied'`. -/
def attachTableOn (tables : TableId → Option Table) (t : TableId) (newId : OrderId) :
    TableId → Option Table :=
  match tables t with
  | none => tables
  | some td =>
    tablesUpdate tables t { td with currentOrder := some newId, status := .occupied }

/-- The attach block of createOrder (`if (tableDoc) { ... }`). -/
def attachTable (tables : TableId → Option Table) (t? : Option TableId) (newId : OrderId) :
    TableId → Option Table :=
  match t? with
  | none => tables
  | some t => attachTableOn tables t newId

theorem attachTable_none (tables : TableId → Option Table) (t? : Option TableId)
    (newId : OrderId) (h : t? = none) : attachTable tables t? newId = tables := by
  unfold attachTable; rw [h]

theorem attachTable_some (tables : TableId → Option Table) (t? : Option TableId)
    (t : TableId) (newId : OrderId) (h : t? = some t) :
    attachTable tables t? newId = attachTableOn tables t newId := by
  unfold attachTable; rw [h]

theorem attachTableOn_found (tables : TableId → Option Table) (t : TableId)
    (td : Table) (newId : OrderId) (h : tables t = some td) :
    attachTableOn tables t newId =
      tablesUpdate tables t { td with currentOrder := some newId, status := .occupied } := by
  unfold attachTableOn; rw [h]

/-- The per-entry check of `applyConsumptions`: an unresolved inventory id
throws a 400; a tracked item whose `currentQty - qty` would be negative
throws a 409 when `FAIL_ON_NEGATIVE` is on. -/
def checkEntry (fon : Bool) (inv : StockId → Option InventoryItem)
    (e : StockId × ℚ) : Option Err :=
  match inv e.1 with
  | none => some ⟨400, "Inventory item not found"⟩
  | some i =>
    if i.isTracked = true ∧ fon = true ∧ i.currentQty - e.2 < 0 then
      some ⟨409, "Insufficient stock"⟩
    else none

theorem checkEntry_none (fon : Bool) (inv : StockId → Option InventoryItem)
    (e : StockId × ℚ) (h : inv e.1 = none) :
    checkEntry fon inv e = some ⟨400, "Inventory item not found"⟩ := by
  unfold checkEntry; rw [h]

theorem checkEntry_some (fon : Bool) (inv : StockId → Option InventoryItem)
    (e : StockId × ℚ) (i : InventoryItem) (h : inv e.1 = some i) :
    checkEntry fon inv e =
      if i.isTracked = true ∧ fon = true ∧ i.currentQty - e.2 < 0 then
        some ⟨409, "Insufficient stock"⟩
      else none := by
  unfold checkEntry; rw [h]

/-- The error scan of the `applyConsumptions` loop: the first error in
entry order wins (the loop throws where it stands, before any write). -/
def consumptionCheck (fon : Bool) (inv : StockId → Option InventoryItem)
    (entries : ConsumptionMap) : Option Err :=
  entries.findSome? (checkEntry fon inv)

/-- The StockMovement documents of `applyConsumptions`: one per entry,
`change: -Math.abs(qty)`, `type: 'usage'`. -/
def usageMovements (entries : ConsumptionMap) : List StockMovement :=
  entries.map fun e => { inventoryItem := e.1, change := -|e.2|, mtype := .usage }

/-- `applyConsumptions(session, consumptionsMap, payload)`: early return on
an empty map; otherwise either the loop throws (error) or both bulk writes
commit: tracked items are decremented and one movement per entry is
appended. -/
def applyConsumptions (fon : Bool) (db : DB) (entries : ConsumptionMap) : Except Err DB :=
  if entries.isEmpty then .ok db
  else
    match consumptionCheck fon db.inv entries with
    | some e => .error e
    | none => .ok { db with inv := applyUsageInv db.inv entries,
                            movements := db.movements ++ usageMovements entries }

/-- The order document built and priced by createOrder before persisting:
validated lines, caller-supplied scalars, status `pending`, the carried
idempotency key, then `recalculateTotals`. `newId`/`newNum` stand for the
generated document id and `generateOrderNumber()`. -/
def newOrderDoc (p : CreatePayload) (validatedItems : List OrderItem)
    (newId : OrderId) (newNum : Nat) : Order :=
  recalculateTotals
    { oid := newId, restaurant := p.restaurant, table := p.table,
      items := validatedItems, subtotal := 0, taxTotal := p.taxTotal,
      discountTotal := p.discountTotal, serviceCharge := p.serviceCharge,
      total := 0, payments := p.payments, status := .pending,
      idempotencyKey := p.idempotencyKey, refunds := [], mergedInto := none,
      splitFrom := none, orderNumber := newNum }

/-- The tail of createOrder after the order document was persisted:
`computeConsumptionsFromMenus` on the validated lines and, when non-empty,
`applyConsumptions` inside the same transaction. -/
def createWithConsumption (fon : Bool) (cat : Catalog) (db1 : DB)
    (validatedItems : List OrderItem) (order1 : Order) : Except Err (DB × Order) :=
  if (computeConsumptionsFromMenus cat validatedItems).isEmpty then .ok (db1, order1)
  else
    match applyConsumptions fon db1 (computeConsumptionsFromMenus cat validatedItems) with
    | .error e => .error e
    | .ok db2 => .ok (db2, order1)

/-- The non-idempotent path of createOrder: validate lines, price, handle
the table, persist the order, attach the table, expand and apply the
consumption map. -/
def createOrderFresh (fon : Bool) (cat : Catalog) (db : DB) (p : CreatePayload)
    (_userId : UserId) (newId : OrderId) (newNum : Nat) : Except Err (DB × Order) :=
  match p.items.mapM (resolveItemCreate cat) with
  | .error e => .error e
  | .ok validatedItems =>
    match tableStep db p.table with
    | .error e => .error e
    | .ok tables1 =>
      createWithConsumption fon cat
        { db with orders := db.orders ++ [newOrderDoc p validatedItems newId newNum],
                  tables := attachTable tables1 p.table newId }
        validatedItems (newOrderDoc p validatedItems newId newNum)

/-- `createOrder({ payload, userId })`: the idempotency check runs first;
a hit commits nothing and returns the prior order unchanged. -/
def createOrder (fon : Bool) (cat : Catalog) (db : DB) (p : CreatePayload)
    (userId : UserId) (newId : OrderId) (newNum : Nat) : Except Err (DB × Order) :=
  match idemHit db p with
  | some existing => .ok (db, existing)
  | none => createOrderFresh fon cat db p userId newId newNum

/-! ### Structural lemmas about createOrder -/

theorem applyConsumptions_ok_shape (fon : Bool) (db : DB) (entries : ConsumptionMap)
    (db' : DB) (h : applyConsumptions fon db entries = .ok db') :
    db'.orders = db.orders ∧ db'.tables = db.tables := by
  unfold applyConsumptions at h
  by_cases he : entries.isEmpty = true
  · rw [if_pos he] at h
    injection h with h'
    rw [← h']
    exact ⟨rfl, rfl⟩
  · rw [if_neg he] at h
    cases hc : consumptionCheck fon db.inv entries with
    | some e => rw [hc] at h; exact Except.noConfusion h
    | none =>
      rw [hc] at h
      injection h with h'
      rw [← h']
      exact ⟨rfl, rfl⟩

theorem createWithConsumption_ok (fon : Bool) (cat : Catalog) (db1 : DB)
    (V : List OrderItem) (o : Order) (db2 : DB) (o2 : Order)
    (h : createWithConsumption fon cat db1 V o = .ok (db2, o2)) :
    o2 = o ∧ db2.orders = db1.orders ∧ db2.tables = db1.tables := by
  unfold createWithConsumption at h
  by_cases he : (computeConsumptionsFromMenus cat V).isEmpty = true
  · rw [if_pos he] at h
    injection h with h'
    injection h' with hdb ho
    rw [← hdb, ← ho]
    exact ⟨rfl, rfl, rfl⟩
  · rw [if_neg he] at h
    cases ha : applyConsumptions fon db1 (computeConsumptionsFromMenus cat V) with
    | error e => rw [ha] at h; exact Except.noConfusion h
    | ok dbA =>
      rw [ha] at h
      injection h with h'
      injection h' with hdb ho
      obtain ⟨h1, h2⟩ := applyConsumptions_ok_shape fon db1 _ dbA ha
      rw [← hdb, ← ho]
      exact ⟨rfl, h1, h2⟩

theorem newOrderDoc_idempotencyKey (p : CreatePayload) (V : List OrderItem)
    (i : OrderId) (n : Nat) : (newOrderDoc p V i n).idempotencyKey = p.idempotencyKey := rfl

theorem newOrderDoc_restaurant (p : CreatePayload) (V : List OrderItem)
    (i : OrderId) (n : Nat) : (newOrderDoc p V i n).restaurant = p.restaurant := rfl

theorem createOrderFresh_ok (fon : Bool) (cat : Catalog) (db : DB) (p : CreatePayload)
    (uid : UserId) (newId : OrderId) (newNum : Nat) (db1 : DB) (o1 : Order)
    (h : createOrderFresh fon cat db p uid newId newNum = .ok (db1, o1)) :
    db1.orders = db.orders ++ [o1] ∧
    o1.idempotencyKey = p.idempotencyKey ∧ o1.restaurant = p.restaurant := by
  unfold createOrderFresh at h
  cases hv : p.items.mapM (resolveItemCreate cat) with
  | error e => rw [hv] at h; exact Except.noConfusion h
  | ok V =>
    rw [hv] at h
    cases ht : tableStep db p.table with
    | error e => rw [ht] at h; exact Except.noConfusion h
    | ok tables1 =>
      rw [ht] at h
      have h2 : createWithConsumption fon cat
          { db with orders := db.orders ++ [newOrderDoc p V newId newNum],
                    tables := attachTable tables1 p.table newId }
          V (newOrderDoc p V newId newNum) = .ok (db1, o1) := h
      obtain ⟨ho, hord, -⟩ := createWithConsumption_ok fon cat _ V _ db1 o1 h2
      subst ho
      exact ⟨hord, rfl, rfl⟩

theorem idemHit_eq (db : DB) (p : CreatePayload) (key : IdemKey)
    (hk : p.idempotencyKey = some key) :
    idemHit db p = findByIdem db.orders key p.restaurant := by
  unfold idemHit; rw [hk]

theorem find?_append_none {α : Type} (p : α → Bool) (l1 l2 : List α)
    (h : l1.find? p = none) : (l1 ++ l2).find? p = l2.find? p := by
  induction l1 with
  | nil => rfl
  | cons a rest ih =>
    rw [List.find?_cons] at h
    rw [List.cons_append, List.find?_cons]
    cases hpa : p a with
    | true => rw [hpa] at h; exact Option.noConfusion h
    | false => rw [hpa] at h; exact ih h

/-- Claim C2: createOrder is idempotent in the idempotency key.  First
conjunct: when an order with the payload's key and restaurant already
exists, createOrder returns it with the state unchanged (no new order, no
inventory, movement or table write).  Second conjunct: two consecutive
creates whose payloads carry the same key and restaurant yield the same
order, and the second leaves the state exactly as the first left it — the
side effects happen at most once. -/
theorem createOrder_idempotent (fon : Bool) (cat : Catalog) :
    (∀ (db : DB) (p : CreatePayload) (key : IdemKey) (ex : Order)
       (uid : UserId) (i n : Nat),
       p.idempotencyKey = some key →
       findByIdem db.orders key p.restaurant = some ex →
       createOrder fon cat db p uid i n = .ok (db, ex)) ∧
    (∀ (db : DB) (p p2 : CreatePayload) (key : IdemKey) (db1 : DB) (o1 : Order)
       (uid uid2 : UserId) (i1 n1 i2 n2 : Nat),
       p.idempotencyKey = some key → p2.idempotencyKey = some key →
       p2.restaurant = p.restaurant →
       createOrder fon cat db p uid i1 n1 = .ok (db1, o1) →
       createOrder fon cat db1 p2 uid2 i2 n2 = .ok (db1, o1)) := by
  constructor
  · intro db p key ex uid i n hk hf
    unfold createOrder
    rw [idemHit_eq db p key hk, hf]
  · intro db p p2 key db1 o1 uid uid2 i1 n1 i2 n2 hk hk2 hr2 h1
    unfold createOrder at h1 ⊢
    rw [idemHit_eq db p key hk] at h1
    rw [idemHit_eq db1 p2 key hk2, hr2]
    cases hf : findByIdem db.orders key p.restaurant with
    | some ex =>
      rw [hf] at h1
      injection h1 with h1'
      injection h1' with hdb hex
      subst hdb
      subst hex
      rw [hf]
    | none =>
      rw [hf] at h1
      obtain ⟨hord, hkey1, hrest1⟩ := createOrderFresh_ok fon cat db p uid i1 n1 db1 o1 h1
      have hfind : findByIdem db1.orders key p.restaurant = some o1 := by
        rw [hord]
        unfold findByIdem at hf ⊢
        rw [find?_append_none _ _ _ hf, List.find?_cons]
        have hpred : (o1.idempotencyKey == some key && o1.restaurant == p.restaurant) = true := by
          rw [hkey1, hk, hrest1]
          simp
        rw [hpred]
      rw [hfind]

/-- An empty catalog, used by several concrete scenarios. -/
def exCatEmpty : Catalog := fun _ => none

def exDbC2 : DB :=
  { orders := [], tables := fun _ => none, inv := fun _ => none, movements := [] }

def exPayloadC2 : CreatePayload :=
  { restaurant := 1, table := none, items := [], taxTotal := 0, discountTotal := 0,
    serviceCharge := 0, payments := [], idempotencyKey := some 42 }

/-- Witness for C2: a concrete first create followed by a retry with the
same key and restaurant returns the identical order and state. -/
theorem createOrder_idempotent_witness :
    ∃ (db1 : DB) (o1 : Order),
      createOrder false exCatEmpty exDbC2 exPayloadC2 9 1 100 = .ok (db1, o1) ∧
      createOrder false exCatEmpty db1 exPayloadC2 9 2 200 = .ok (db1, o1) := by
  refine ⟨_, _, rfl, ?_⟩
  exact (createOrder_idempotent false exCatEmpty).2 exDbC2 exPayloadC2 exPayloadC2 42
    _ _ 9 9 1 100 2 200 rfl rfl rfl rfl


/-! ### FAIL_ON_NEGATIVE -/

theorem consumptionCheck_fail (inv : StockId → Option InventoryItem)
    (entries : ConsumptionMap)
    (hex : ∀ e ∈ entries, (inv e.1).isSome)
    (hviol : ∃ e ∈ entries, ∃ i, inv e.1 = some i ∧
       i.isTracked = true ∧ i.currentQty - e.2 < 0) :
    consumptionCheck true inv entries = some ⟨409, "Insufficient stock"⟩ := by
  induction entries with
  | nil =>
    obtain ⟨e, he, -⟩ := hviol
    exact absurd he (List.not_mem_nil e)
  | cons e rest ih =>
    unfold consumptionCheck at ih ⊢
    rw [List.findSome?_cons]
    cases hi : inv e.1 with
    | none =>
      have hs := hex e (List.mem_cons_self e rest)
      rw [hi] at hs
      exact Bool.noConfusion hs
    | some i =>
      rw [checkEntry_some true inv e i hi]
      by_cases hc : i.isTracked = true ∧ true = true ∧ i.currentQty - e.2 < 0
      · rw [if_pos hc]
      · rw [if_neg hc]
        apply ih
        · intro e' he'
          exact hex e' (List.mem_cons_of_mem e he')
        · obtain ⟨e', he', i', hi', htr', hng'⟩ := hviol
          rcases List.mem_cons.mp he' with h | h
          · subst h
            rw [hi] at hi'
            injection hi' with hii
            subst hii
            exact absurd ⟨htr', rfl, hng'⟩ hc
          · exact ⟨e', h, i', hi', htr', hng'⟩

theorem applyConsumptions_error (fon : Bool) (db : DB) (entries : ConsumptionMap)
    (err : Err) (hne : ¬ (entries.isEmpty = true))
    (hc : consumptionCheck fon db.inv entries = some err) :
    applyConsumptions fon db entries = .error err := by
  unfold applyConsumptions
  rw [if_neg hne, hc]

theorem createWithConsumption_error (fon : Bool) (cat : Catalog) (db1 : DB)
    (V : List OrderItem) (o : Order) (err : Err)
    (hne : ¬ ((computeConsumptionsFromMenus cat V).isEmpty = true))
    (hc : consumptionCheck fon db1.inv (computeConsumptionsFromMenus cat V) = some err) :
    createWithConsumption fon cat db1 V o = .error err := by
  unfold createWithConsumption
  rw [if_neg hne, applyConsumptions_error fon db1 _ err hne hc]

/-- Claim C4: with FAIL_ON_NEGATIVE enabled, a create whose recipe
consumption would drive some tracked stock item's `currentQty` below zero
fails whole with the 409 insufficient-stock error: the transaction aborts,
so no order document, no inventory decrement and no StockMovement is
committed (the error branch of the model carries no state).  Hypotheses:
the payload does not hit the idempotency check, its lines validate, the
table block passes, and every expanded stock id resolves. -/
theorem createOrder_insufficient_stock (cat : Catalog) (db : DB) (p : CreatePayload)
    (uid : UserId) (newId : OrderId) (newNum : Nat) (V : List OrderItem)
    (hidem : idemHit db p = none)
    (hval : p.items.mapM (resolveItemCreate cat) = .ok V)
    (htab : ∀ t, p.table = some t →
       ∃ td, db.tables t = some td ∧ td.status ≠ TableStatus.disabled)
    (hex : ∀ e ∈ computeConsumptionsFromMenus cat V, (db.inv e.1).isSome)
    (hviol : ∃ e ∈ computeConsumptionsFromMenus cat V, ∃ i, db.inv e.1 = some i ∧
       i.isTracked = true ∧ i.currentQty - e.2 < 0) :
    createOrder true cat db p uid newId newNum = .error ⟨409, "Insufficient stock"⟩ ∧
    ∀ r, createOrder true cat db p uid newId newNum ≠ .ok r := by
  have hne : ¬ ((computeConsumptionsFromMenus cat V).isEmpty = true) := by
    intro hnil
    rw [List.isEmpty_iff] at hnil
    rw [hnil] at hviol
    obtain ⟨e, he, -⟩ := hviol
    exact absurd he (List.not_mem_nil e)
  have hmain : createOrder true cat db p uid newId newNum =
      .error ⟨409, "Insufficient stock"⟩ := by
    unfold createOrder
    rw [hidem]
    unfold createOrderFresh
    rw [hval]
    obtain ⟨tables1, ht⟩ : ∃ ts, tableStep db p.table = .ok ts := by
      cases hpt : p.table with
      | none => exact ⟨db.tables, tableStep_none db none rfl⟩
      | some t =>
        obtain ⟨td, htd, hnd⟩ := htab t hpt
        by_cases ha : td.status = TableStatus.available
        · exact ⟨_, by rw [tableStep_some db (some t) t rfl,
            tableStepOn_found db t td htd, if_neg hnd, if_pos ha]⟩
        · exact ⟨_, by rw [tableStep_some db (some t) t rfl,
            tableStepOn_found db t td htd, if_neg hnd, if_neg ha]⟩
    rw [ht]
    exact createWithConsumption_error true cat _ V _ _ hne
      (consumptionCheck_fail db.inv _ hex hviol)
  refine ⟨hmain, ?_⟩
  intro r hr
  rw [hmain] at hr
  exact Except.noConfusion hr

def exCatC4 : Catalog := fun m =>
  if m = 1 then
    some { name := "Pulao", isActive := true, basePrice := 10, variants := [],
           modifiers := [], recipe := [{ inventoryItemId := some 0, qty := 5 }] }
  else none

def exDbC4 : DB :=
  { orders := [], tables := fun _ => none,
    inv := fun k => if k = 0 then some { isTracked := true, currentQty := 3 } else none,
    movements := [] }

def exPayloadC4 : CreatePayload :=
  { restaurant := 1, table := none,
    items := [{ menuItem := 1, variantId := none, modifiers := none, qty := 1, discount := 0 }],
    taxTotal := 0, discountTotal := 0, serviceCharge := 0, payments := [],
    idempotencyKey := none }

/-- Witness for C4: ordering one serving that needs 5 units of a tracked
item holding 3 is rejected with the 409 insufficient-stock error. -/
theorem createOrder_insufficient_stock_witness :
    createOrder true exCatC4 exDbC4 exPayloadC4 0 5 50 =
      .error ⟨409, "Insufficient stock"⟩ :=
  (createOrder_insufficient_stock exCatC4 exDbC4 exPayloadC4 0 5 50
    [{ menuItem := some 1, name := "Pulao", variantId := none, modifiers := [],
       qty := 1, price := 10, discount := 0, lineId := none }]
    rfl rfl (fun t h => Option.noConfusion h) (by with_unfolding_all decide)
    ⟨(0, 5), by with_unfolding_all decide,
      { isTracked := true, currentQty := 3 }, rfl, rfl, by with_unfolding_all decide⟩).1


/-! ### Table binding in createOrder -/

/-- Counterexample to claim C6: table 0 is `occupied` and bound
(`currentOrder`) to the distinct, non-cancelled order 5, yet createOrder
with that table does not fail with a conflict — it succeeds and silently
rebinds the table to the new order 7. -/
def exOrder5 : Order :=
  { oid := 5, restaurant := 1, table := some 0, items := [], subtotal := 0,
    taxTotal := 0, discountTotal := 0, serviceCharge := 0, total := 0,
    payments := [], status := .pending, idempotencyKey := none, refunds := [],
    mergedInto := none, splitFrom := none, orderNumber := 1 }

def exDbC6 : DB :=
  { orders := [exOrder5],
    tables := fun x =>
      if x = 0 then some { status := .occupied, currentOrder := some 5, mergedInto := none }
      else none,
    inv := fun _ => none, movements := [] }

def exPayloadC6 : CreatePayload :=
  { restaurant := 1, table := some 0, items := [], taxTotal := 0, discountTotal := 0,
    serviceCharge := 0, payments := [], idempotencyKey := none }

theorem createOrder_rebinds_occupied_table :
    (exDbC6.tables 0 = some { status := .occupied, currentOrder := some 5, mergedInto := none }) ∧
    (∃ o5 ∈ exDbC6.orders, o5.oid = 5 ∧ o5.status ≠ .cancelled) ∧
    ∃ (db' : DB) (o' : Order),
      createOrder false exCatEmpty exDbC6 exPayloadC6 0 7 70 = .ok (db', o') ∧
      o'.oid = 7 ∧
      db'.tables 0 = some { status := .occupied, currentOrder := some 7, mergedInto := none } := by
  refine ⟨rfl, ⟨exOrder5, by simp [exDbC6], rfl, by simp [exOrder5]⟩, _, _, rfl, rfl, rfl⟩

/-- Claim C6 amended: for a createOrder whose payload names a table (and
whose lines validate and no idempotency hit occurs), the operation fails
with 404 when the table is missing and with 409 when it is disabled; in
every other case — including a table already occupied and bound to a
different non-cancelled order, which the code never checks — creation
succeeds (given the consumption step does) and the table ends `occupied`
with `currentOrder` overwritten to the new order. -/
theorem createOrder_table_binding (fon : Bool) (cat : Catalog) (db : DB)
    (p : CreatePayload) (uid : UserId) (newId : OrderId) (newNum : Nat)
    (t : TableId) (V : List OrderItem)
    (hidem : idemHit db p = none)
    (hval : p.items.mapM (resolveItemCreate cat) = .ok V)
    (htab : p.table = some t) :
    (db.tables t = none →
      createOrder fon cat db p uid newId newNum = .error ⟨404, "Table not found"⟩) ∧
    (∀ td, db.tables t = some td → td.status = .disabled →
      createOrder fon cat db p uid newId newNum = .error ⟨409, "Table disabled"⟩) ∧
    (∀ td db' o', db.tables t = some td →
      createOrder fon cat db p uid newId newNum = .ok (db', o') →
      db'.tables t = some { td with currentOrder := some newId, status := .occupied }) := by
  refine ⟨?_, ?_, ?_⟩
  · intro hn
    unfold createOrder
    rw [hidem]
    unfold createOrderFresh
    rw [hval, tableStep_some db p.table t htab, tableStepOn_missing db t hn]
  · intro td htd hdis
    unfold createOrder
    rw [hidem]
    unfold createOrderFresh
    rw [hval, tableStep_some db p.table t htab, tableStepOn_found db t td htd, if_pos hdis]
  · intro td db' o' htd hok
    unfold createOrder at hok
    rw [hidem] at hok
    unfold createOrderFresh at hok
    rw [hval, tableStep_some db p.table t htab, tableStepOn_found db t td htd] at hok
    by_cases hdis : td.status = TableStatus.disabled
    · rw [if_pos hdis] at hok
      exact Except.noConfusion hok
    · rw [if_neg hdis] at hok
      by_cases ha : td.status = TableStatus.available
      · rw [if_pos ha] at hok
        have hok2 : createWithConsumption fon cat
            { db with orders := db.orders ++ [newOrderDoc p V newId newNum],
                      tables := attachTable
                        (tablesUpdate db.tables t { td with status := .occupied })
                        p.table newId }
            V (newOrderDoc p V newId newNum) = .ok (db', o') := hok
        obtain ⟨-, -, hts⟩ := createWithConsumption_ok fon cat _ V _ db' o' hok2
        rw [hts]
        show attachTable (tablesUpdate db.tables t { td with status := .occupied })
          p.table newId t = _
        rw [attachTable_some _ p.table t newId htab,
          attachTableOn_found _ t { td with status := .occupied } newId
            (by unfold tablesUpdate; rw [if_pos rfl])]
        unfold tablesUpdate
        rw [if_pos rfl]
      · rw [if_neg ha] at hok
        have hok2 : createWithConsumption fon cat
            { db with orders := db.orders ++ [newOrderDoc p V newId newNum],
                      tables := attachTable db.tables p.table newId }
            V (newOrderDoc p V newId newNum) = .ok (db', o') := hok
        obtain ⟨-, -, hts⟩ := createWithConsumption_ok fon cat _ V _ db' o' hok2
        rw [hts]
        show attachTable db.tables p.table newId t = _
        rw [attachTable_some _ p.table t newId htab, attachTableOn_found _ t td newId htd]
        unfold tablesUpdate
        rw [if_pos rfl]

def exDbC6b : DB :=
  { orders := [],
    tables := fun x =>
      if x = 3 then some { status := .reserved, currentOrder := none, mergedInto := none }
      else none,
    inv := fun _ => none, movements := [] }

def exPayloadC6b : CreatePayload :=
  { restaurant := 1, table := some 3, items := [], taxTotal := 0, discountTotal := 0,
    serviceCharge := 0, payments := [], idempotencyKey := none }

/-- Witness for the amended C6 at a reserved table: creation succeeds and
binds it. -/
theorem createOrder_table_binding_witness :
    ∃ (db' : DB) (o' : Order),
      createOrder false exCatEmpty exDbC6b exPayloadC6b 0 8 80 = .ok (db', o') ∧
      db'.tables 3 = some { status := .occupied, currentOrder := some 8, mergedInto := none } := by
  refine ⟨_, _, rfl, ?_⟩
  exact (createOrder_table_binding false exCatEmpty exDbC6b exPayloadC6b 0 8 80 3 []
    rfl rfl rfl).2.2 { status := .reserved, currentOrder := none, mergedInto := none }
    _ _ rfl rfl


/-! ## Orchestrator: order mutations -/

/-- `Order.findById(id)`. -/
def findOrder (orders : List Order) (i : OrderId) : Option Order :=
  orders.find? (fun o => o.oid == i)

/-- `order.save()`: replace the document with this `_id`. -/
def updateOrder (orders : List Order) (i : OrderId) (o' : Order) : List Order :=
  orders.map (fun o => if o.oid = i then o' else o)

/-- `payments.reduce((s, p) => s + (p.amount || 0), 0)`. -/
def sumAmounts (ps : List Payment) : ℚ :=
  ps.foldl (fun s p => s + jsOr p.amount 0) 0

/-- `refunds.reduce((s, r) => s + (r.amount || 0), 0)`. -/
def sumRefunds (rs : List Refund) : ℚ :=
  rs.foldl (fun s r => s + jsOr r.amount 0) 0

/-- The table-freeing block of updateOrderStatus: clears `currentOrder`,
sets `available` and also clears `mergedInto`. -/
def freeTableFull (tables : TableId → Option Table) (t : TableId) :
    TableId → Option Table :=
  match tables t with
  | none => tables
  | some td =>
    tablesUpdate tables t { td with currentOrder := none, status := .available,
                                    mergedInto := none }

theorem freeTableFull_found (tables : TableId → Option Table) (t : TableId) (td : Table)
    (h : tables t = some td) :
    freeTableFull tables t =
      tablesUpdate tables t { td with currentOrder := none, status := .available,
                                      mergedInto := none } := by
  unfold freeTableFull; rw [h]

/-- The table-freeing block of addPayment: clears `currentOrder` and sets
`available` (it does not touch `mergedInto`). -/
def freeTablePay (tables : TableId → Option Table) (t : TableId) :
    TableId → Option Table :=
  match tables t with
  | none => tables
  | some td => tablesUpdate tables t { td with currentOrder := none, status := .available }

theorem freeTablePay_found (tables : TableId → Option Table) (t : TableId) (td : Table)
    (h : tables t = some td) :
    freeTablePay tables t =
      tablesUpdate tables t { td with currentOrder := none, status := .available } := by
  unfold freeTablePay; rw [h]

/-- `if (order.table && ['completed','cancelled'].includes(status))` in
updateOrderStatus. -/
def statusTables (db : DB) (t? : Option TableId) (st : OrderStatus) :
    TableId → Option Table :=
  match t? with
  | none => db.tables
  | some t =>
    if st = .completed ∨ st = .cancelled then freeTableFull db.tables t
    else db.tables

theorem statusTables_some (db : DB) (t? : Option TableId) (t : TableId)
    (st : OrderStatus) (h : t? = some t) :
    statusTables db t? st =
      if st = .completed ∨ st = .cancelled then freeTableFull db.tables t
      else db.tables := by
  unfold statusTables; rw [h]

/-- `updateOrderStatus(orderId, status, userId)`: set the status and, when
the new status is completed/cancelled and a table is bound, free it. -/
def updateOrderStatus (db : DB) (orderId : OrderId) (status : OrderStatus)
    (_userId : UserId) : Except Err (DB × Order) :=
  match findOrder db.orders orderId with
  | none => .error ⟨404, "Order not found"⟩
  | some order =>
    .ok ({ db with orders := updateOrder db.orders orderId { order with status := status },
                   tables := statusTables db order.table status },
         { order with status := status })

theorem updateOrderStatus_found (db : DB) (i : OrderId) (st : OrderStatus) (u : UserId)
    (o : Order) (h : findOrder db.orders i = some o) :
    updateOrderStatus db i st u =
      .ok ({ db with orders := updateOrder db.orders i { o with status := st },
                     tables := statusTables db o.table st },
           { o with status := st }) := by
  unfold updateOrderStatus; rw [h]

/-- `if (order.table)` in addPayment's fully-paid branch. -/
def payTables (db : DB) (t? : Option TableId) : TableId → Option Table :=
  match t? with
  | none => db.tables
  | some t => freeTablePay db.tables t

theorem payTables_some (db : DB) (t? : Option TableId) (t : TableId) (h : t? = some t) :
    payTables db t? = freeTablePay db.tables t := by
  unfold payTables; rw [h]

/-- The fully-paid updated order of addPayment: payment appended, status
completed. -/
def paidOrder (o : Order) (pay : Payment) : Order :=
  { o with payments := o.payments ++ [pay], status := .completed }

/-- The partially-paid updated order of addPayment: payment appended,
status untouched. -/
def partPaidOrder (o : Order) (pay : Payment) : Order :=
  { o with payments := o.payments ++ [pay] }

/-- `addPayment({ orderId, payment, userId })`: reject cancelled orders,
append the payment, and when cumulative payments reach the total set the
status to completed and free the bound table. -/
def addPayment (db : DB) (orderId : OrderId) (payment : Payment) (_userId : UserId) :
    Except Err (DB × Order) :=
  match findOrder db.orders orderId with
  | none => .error ⟨404, "Order not found"⟩
  | some order =>
    if order.status = .cancelled then .error ⟨409, "Cannot pay cancelled order"⟩
    else
      if sumAmounts (order.payments ++ [payment]) ≥ order.total then
        .ok ({ db with orders := updateOrder db.orders orderId (paidOrder order payment),
                       tables := payTables db order.table },
             paidOrder order payment)
      else
        .ok ({ db with orders := updateOrder db.orders orderId (partPaidOrder order payment) },
             partPaidOrder order payment)

theorem addPayment_found (db : DB) (i : OrderId) (pay : Payment) (u : UserId) (o : Order)
    (h : findOrder db.orders i = some o) :
    addPayment db i pay u =
      (if o.status = .cancelled then .error ⟨409, "Cannot pay cancelled order"⟩
       else
         if sumAmounts (o.payments ++ [pay]) ≥ o.total then
           .ok ({ db with orders := updateOrder db.orders i (paidOrder o pay),
                          tables := payTables db o.table },
                paidOrder o pay)
         else
           .ok ({ db with orders := updateOrder db.orders i (partPaidOrder o pay) },
                partPaidOrder o pay)) := by
  unfold addPayment; rw [h]

/-- The updated order document of refundPayment: the refund is appended to
the `meta.refunds` ledger (payments stay untouched), and the status
reverts to pending when net paid drops below the total. -/
def refundResult (o : Order) (refund : Refund) : Order :=
  if sumAmounts o.payments - sumRefunds (o.refunds ++ [refund]) < o.total then
    { o with refunds := o.refunds ++ [refund], status := .pending }
  else { o with refunds := o.refunds ++ [refund] }

/-- `refundPayment({ orderId, refund, userId })`: appends the refund
record; payments, tables and inventory are never touched. -/
def refundPayment (db : DB) (orderId : OrderId) (refund : Refund) (_userId : UserId) :
    Except Err (DB × Order) :=
  match findOrder db.orders orderId with
  | none => .error ⟨404, "Order not found"⟩
  | some order =>
    .ok ({ db with orders := updateOrder db.orders orderId (refundResult order refund) },
         refundResult order refund)

theorem refundPayment_found (db : DB) (i : OrderId) (refund : Refund) (u : UserId)
    (o : Order) (h : findOrder db.orders i = some o) :
    refundPayment db i refund u =
      .ok ({ db with orders := updateOrder db.orders i (refundResult o refund) },
           refundResult o refund) := by
  unfold refundPayment; rw [h]

/-- The re-priced merge target: the source's items and payments are
concatenated onto the target and totals recomputed. -/
def mergedTarget (tgt src : Order) : Order :=
  recalculateTotals { tgt with items := tgt.items ++ src.items,
                               payments := tgt.payments ++ src.payments }

/-- The cancelled merge source, with its `meta.mergedInto` back-reference. -/
def cancelledSource (src tgt : Order) : Order :=
  { src with status := .cancelled, mergedInto := some tgt.oid }

/-- The body of mergeOrders once both orders are loaded: concatenate items
and payments into the target, re-price it, cancel the source with a
back-reference, and inherit the source's table reference when the target
has none (`if (src.table && !tgt.table)`).  No table document and no
inventory is touched. -/
def mergeFound (db : DB) (sourceOrderId targetOrderId : OrderId) (src tgt : Order) :
    Except Err (DB × Order) :=
  if src.table.isSome ∧ tgt.table = none then
    .ok ({ db with orders :=
             (updateOrder
               (updateOrder
                 (updateOrder db.orders targetOrderId (mergedTarget tgt src))
                 sourceOrderId (cancelledSource src tgt))
               targetOrderId ({ mergedTarget tgt src with table := src.table })) },
         { mergedTarget tgt src with table := src.table })
  else
    .ok ({ db with orders :=
             (updateOrder
               (updateOrder db.orders targetOrderId (mergedTarget tgt src))
               sourceOrderId (cancelledSource src tgt)) },
         mergedTarget tgt src)

/-- `mergeOrders({ sourceOrderId, targetOrderId, performedBy })`. -/
def mergeOrders (db : DB) (sourceOrderId targetOrderId : OrderId) :
    Except Err (DB × Order) :=
  if sourceOrderId = targetOrderId then .error ⟨400, "Same order"⟩
  else
    match findOrder db.orders sourceOrderId, findOrder db.orders targetOrderId with
    | some src, some tgt => mergeFound db sourceOrderId targetOrderId src tgt
    | _, _ => .error ⟨404, "Order not found"⟩

theorem mergeOrders_found (db : DB) (s t : OrderId) (src tgt : Order)
    (hne : ¬ (s = t)) (hs : findOrder db.orders s = some src)
    (ht : findOrder db.orders t = some tgt) :
    mergeOrders db s t = mergeFound db s t src tgt := by
  unfold mergeOrders; rw [if_neg hne, hs, ht]

/-- `itemIndexes.includes(idx) || (itemIds.length && idStr && itemIds.includes(idStr))`. -/
def selectedLine (itemIndexes itemIds : List Nat) (it : OrderItem) (idx : Nat) : Bool :=
  itemIndexes.contains idx ||
    (!itemIds.isEmpty &&
      (match it.lineId with
       | some lid => itemIds.contains lid
       | none => false))

/-- The forEach partition of splitItemsToNewOrder: selected lines go to
`toMove` (first component), the rest to `remaining`. -/
def pickItems (sel : OrderItem → Nat → Bool) :
    List OrderItem → Nat → List OrderItem × List OrderItem
  | [], _ => ([], [])
  | it :: rest, idx =>
    if sel it idx then
      (it :: (pickItems sel rest (idx + 1)).1, (pickItems sel rest (idx + 1)).2)
    else
      ((pickItems sel rest (idx + 1)).1, it :: (pickItems sel rest (idx + 1)).2)

/-- The table block of splitItemsToNewOrder: the table keeps pointing at
the ORIGINAL order (`table.currentOrder = order._id`) and stays occupied. -/
def splitTables (db : DB) (t? : Option TableId) (keepOrder : OrderId) :
    TableId → Option Table :=
  match t? with
  | none => db.tables
  | some t =>
    match db.tables t with
    | none => db.tables
    | some td => tablesUpdate db.tables t { td with currentOrder := some keepOrder,
                                                    status := .occupied }

/-- The new order document created by splitItemsToNewOrder from the moved
lines: same restaurant/outlet/table, zero tax, discount and service
charge, no payments, status pending, and a `splitFrom` lineage pointer —
then re-priced. -/
def splitNewOrder (order : Order) (toMove : List OrderItem)
    (newId : OrderId) (newNum : Nat) : Order :=
  recalculateTotals
    { oid := newId, restaurant := order.restaurant, table := order.table,
      items := toMove, subtotal := 0, taxTotal := 0, discountTotal := 0,
      serviceCharge := 0, total := 0, payments := [], status := .pending,
      idempotencyKey := none, refunds := [], mergedInto := none,
      splitFrom := some order.oid, orderNumber := newNum }

/-- The tail of splitItemsToNewOrder after validation: shrink the original
order to the remaining lines (re-priced) and persist the new order. -/
def splitFound (db : DB) (orderId : OrderId) (order : Order)
    (toMove remaining : List OrderItem) (_userId : UserId) (newId : OrderId) (newNum : Nat) :
    Except Err (DB × Order) :=
  .ok ({ db with
          orders := (updateOrder db.orders orderId
              (recalculateTotals { order with items := remaining }) ++
            [splitNewOrder order toMove newId newNum]),
          tables := splitTables db order.table order.oid },
       splitNewOrder order toMove newId newNum)

/-- `splitItemsToNewOrder({ orderId, itemIndexes, itemIds, userId })`. -/
def splitItemsToNewOrder (db : DB) (orderId : OrderId) (itemIndexes itemIds : List Nat)
    (uid : UserId) (newId : OrderId) (newNum : Nat) : Except Err (DB × Order) :=
  match findOrder db.orders orderId with
  | none => .error ⟨404, "Order not found"⟩
  | some order =>
    if order.items.isEmpty then .error ⟨400, "No items to split"⟩
    else
      if (pickItems (selectedLine itemIndexes itemIds) order.items 0).1.isEmpty then
        .error ⟨400, "No matching items to split"⟩
      else
        splitFound db orderId order
          (pickItems (selectedLine itemIndexes itemIds) order.items 0).1
          (pickItems (selectedLine itemIndexes itemIds) order.items 0).2
          uid newId newNum

theorem splitItems_found (db : DB) (orderId : OrderId) (idxs ids : List Nat)
    (uid : UserId) (newId : OrderId) (newNum : Nat) (o : Order)
    (h : findOrder db.orders orderId = some o) :
    splitItemsToNewOrder db orderId idxs ids uid newId newNum =
      (if o.items.isEmpty then .error ⟨400, "No items to split"⟩
       else
         if (pickItems (selectedLine idxs ids) o.items 0).1.isEmpty then
           .error ⟨400, "No matching items to split"⟩
         else
           splitFound db orderId o
             (pickItems (selectedLine idxs ids) o.items 0).1
             (pickItems (selectedLine idxs ids) o.items 0).2
             uid newId newNum) := by
  unfold splitItemsToNewOrder; rw [h]


/-! ### Claim C9: refundPayment -/

/-- Claim C9: refundPayment appends the refund to the order's
`meta.refunds` ledger without modifying the payments list; the status
reverts to pending exactly when net paid (payments − refunds) drops below
the total, and is untouched otherwise; the order's table reference, every
table document, the whole inventory store and the movement log are left
unchanged. -/
theorem refundPayment_spec (db : DB) (orderId : OrderId) (refund : Refund)
    (uid : UserId) (o : Order) (h : findOrder db.orders orderId = some o) :
    ∃ (db' : DB) (o' : Order),
      refundPayment db orderId refund uid = .ok (db', o') ∧
      o'.payments = o.payments ∧
      o'.refunds = o.refunds ++ [refund] ∧
      o'.status = (if sumAmounts o.payments - sumRefunds (o.refunds ++ [refund]) < o.total
                   then .pending else o.status) ∧
      o'.table = o.table ∧
      db'.tables = db.tables ∧ db'.inv = db.inv ∧ db'.movements = db.movements := by
  refine ⟨_, _, refundPayment_found db orderId refund uid o h, ?_, ?_, ?_, ?_, rfl, rfl, rfl⟩
  · unfold refundResult; split <;> rfl
  · unfold refundResult; split <;> rfl
  · unfold refundResult
    by_cases hc : sumAmounts o.payments - sumRefunds (o.refunds ++ [refund]) < o.total
    · rw [if_pos hc, if_pos hc]
    · rw [if_neg hc, if_neg hc]
  · unfold refundResult; split <;> rfl

def exOrderC9 : Order :=
  { oid := 1, restaurant := 1, table := some 2, items := [], subtotal := 0,
    taxTotal := 0, discountTotal := 0, serviceCharge := 0, total := 500,
    payments := [{ amount := 500 }], status := .completed, idempotencyKey := none,
    refunds := [], mergedInto := none, splitFrom := none, orderNumber := 1 }

def exDbC9 : DB :=
  { orders := [exOrderC9],
    tables := fun t =>
      if t = 2 then some { status := .occupied, currentOrder := some 1, mergedInto := none }
      else none,
    inv := fun _ => none, movements := [] }

/-- Witness for C9: a 200 refund on a fully paid 500 order — net paid 300
drops below the total, the status reverts to pending, and tables,
inventory and movements are untouched. -/
theorem refundPayment_spec_witness :
    ∃ (db' : DB) (o' : Order),
      refundPayment exDbC9 1 { amount := 200 } 0 = .ok (db', o') ∧
      o'.payments = exOrderC9.payments ∧
      o'.refunds = exOrderC9.refunds ++ [{ amount := 200 }] ∧
      o'.status = (if sumAmounts exOrderC9.payments -
                      sumRefunds (exOrderC9.refunds ++ [{ amount := 200 }]) < exOrderC9.total
                   then .pending else exOrderC9.status) ∧
      o'.table = exOrderC9.table ∧
      db'.tables = exDbC9.tables ∧ db'.inv = exDbC9.inv ∧ db'.movements = exDbC9.movements :=
  refundPayment_spec exDbC9 1 { amount := 200 } 0 exOrderC9 rfl

/-! ### Claim C7: addPayment -/

def exOrderC7 : Order :=
  { oid := 1, restaurant := 1, table := none, items := [], subtotal := 0,
    taxTotal := 0, discountTotal := 0, serviceCharge := 0, total := 0,
    payments := [], status := .cancelled, idempotencyKey := none,
    refunds := [], mergedInto := none, splitFrom := none, orderNumber := 1 }

def exDbC7 : DB :=
  { orders := [exOrderC7], tables := fun _ => none, inv := fun _ => none, movements := [] }

/-- Counterexample to claim C7: the claim quantifies over every order, but
on a cancelled order addPayment throws a 409 and appends nothing — even
though the cumulative payments (0) already reach the total (0). -/
theorem addPayment_cancelled_counterexample :
    exOrderC7.status = .cancelled ∧
    addPayment exDbC7 1 { amount := 5 } 0 = .error ⟨409, "Cannot pay cancelled order"⟩ :=
  ⟨rfl, rfl⟩

/-- Claim C7 amended: for every NON-cancelled order, addPayment appends
the payment record; when the cumulative sum of payment amounts reaches the
total the status becomes completed and the bound table is freed
(available, `currentOrder` cleared); below the total the status and the
tables are unchanged.  A cancelled order is rejected with a 409 instead. -/
theorem addPayment_spec (db : DB) (i : OrderId) (pay : Payment) (uid : UserId)
    (o : Order) (h : findOrder db.orders i = some o)
    (hnc : ¬ (o.status = .cancelled)) :
    ∃ (db' : DB) (o' : Order),
      addPayment db i pay uid = .ok (db', o') ∧
      o'.payments = o.payments ++ [pay] ∧
      (sumAmounts (o.payments ++ [pay]) ≥ o.total →
        o'.status = .completed ∧
        ∀ t td, o.table = some t → db.tables t = some td →
          db'.tables t = some { td with currentOrder := none, status := .available }) ∧
      (¬ (sumAmounts (o.payments ++ [pay]) ≥ o.total) →
        o'.status = o.status ∧ db'.tables = db.tables) := by
  by_cases hp : sumAmounts (o.payments ++ [pay]) ≥ o.total
  · have heq : addPayment db i pay uid =
        .ok ({ db with orders := updateOrder db.orders i (paidOrder o pay),
                       tables := payTables db o.table },
             paidOrder o pay) := by
      rw [addPayment_found db i pay uid o h, if_neg hnc, if_pos hp]
    refine ⟨_, _, heq, rfl, fun _ => ⟨rfl, ?_⟩, fun hnp => absurd hp hnp⟩
    intro t td hot htd
    show payTables db o.table t = _
    rw [payTables_some db o.table t hot, freeTablePay_found db.tables t td htd]
    unfold tablesUpdate
    rw [if_pos rfl]
  · have heq : addPayment db i pay uid =
        .ok ({ db with orders := updateOrder db.orders i (partPaidOrder o pay) },
             partPaidOrder o pay) := by
      rw [addPayment_found db i pay uid o h, if_neg hnc, if_neg hp]
    exact ⟨_, _, heq, rfl, fun hp' => absurd hp' hp, fun _ => ⟨rfl, rfl⟩⟩

def exOrderC7b : Order :=
  { oid := 1, restaurant := 1, table := some 4, items := [], subtotal := 0,
    taxTotal := 0, discountTotal := 0, serviceCharge := 0, total := 500,
    payments := [], status := .pending, idempotencyKey := none,
    refunds := [], mergedInto := none, splitFrom := none, orderNumber := 1 }

def exDbC7b : DB :=
  { orders := [exOrderC7b],
    tables := fun t =>
      if t = 4 then some { status := .occupied, currentOrder := some 1, mergedInto := none }
      else none,
    inv := fun _ => none, movements := [] }

/-- Witness for the amended C7: paying 500 on a pending order with total
500 appends the payment, completes the order and frees table 4. -/
theorem addPayment_spec_witness :
    ∃ (db' : DB) (o' : Order),
      addPayment exDbC7b 1 { amount := 500 } 0 = .ok (db', o') ∧
      o'.payments = exOrderC7b.payments ++ [{ amount := 500 }] ∧
      o'.status = .completed ∧
      db'.tables 4 = some { status := .available, currentOrder := none, mergedInto := none } := by
  obtain ⟨db', o', heq, hpay, hfull, -⟩ :=
    addPayment_spec exDbC7b 1 { amount := 500 } 0 exOrderC7b rfl (by decide)
  have hp : sumAmounts (exOrderC7b.payments ++ [{ amount := 500 }]) ≥ exOrderC7b.total := by
    with_unfolding_all decide
  obtain ⟨hst, htb⟩ := hfull hp
  exact ⟨db', o', heq, hpay, hst,
    htb 4 { status := .occupied, currentOrder := some 1, mergedInto := none } rfl rfl⟩


/-! ### Claim C5: releasing the table on completed/cancelled -/

theorem mergeFound_tables (db : DB) (s t : OrderId) (src tgt : Order)
    (db' : DB) (o' : Order) (h : mergeFound db s t src tgt = .ok (db', o')) :
    db'.tables = db.tables := by
  unfold mergeFound at h
  by_cases hc : src.table.isSome = true ∧ tgt.table = none
  · rw [if_pos hc] at h
    injection h with h'
    injection h' with hdb ho
    rw [← hdb]
  · rw [if_neg hc] at h
    injection h with h'
    injection h' with hdb ho
    rw [← hdb]

def exSrcC5 : Order :=
  { oid := 1, restaurant := 1, table := some 0, items := [], subtotal := 0,
    taxTotal := 0, discountTotal := 0, serviceCharge := 0, total := 0,
    payments := [], status := .pending, idempotencyKey := none,
    refunds := [], mergedInto := none, splitFrom := none, orderNumber := 1 }

def exTgtC5 : Order :=
  { oid := 2, restaurant := 1, table := none, items := [], subtotal := 0,
    taxTotal := 0, discountTotal := 0, serviceCharge := 0, total := 0,
    payments := [], status := .pending, idempotencyKey := none,
    refunds := [], mergedInto := none, splitFrom := none, orderNumber := 2 }

def exDbC5 : DB :=
  { orders := [exSrcC5, exTgtC5],
    tables := fun x =>
      if x = 0 then some { status := .occupied, currentOrder := some 1, mergedInto := none }
      else none,
    inv := fun _ => none, movements := [] }

/-- Counterexample to claim C5: mergeOrders moves order 1 (bound to table
0) into order 2 and marks order 1 cancelled, yet table 0 stays `occupied`
with `currentOrder` still pointing at the cancelled order — the table is
not released. -/
theorem mergeOrders_keeps_table_counterexample :
    ∃ (db' : DB) (o' : Order),
      mergeOrders exDbC5 1 2 = .ok (db', o') ∧
      (∃ src' ∈ db'.orders, src'.oid = 1 ∧ src'.status = .cancelled ∧ src'.table = some 0) ∧
      db'.tables 0 = some { status := .occupied, currentOrder := some 1, mergedInto := none } := by
  refine ⟨_, _, rfl, ?_, rfl⟩
  exact ⟨cancelledSource exSrcC5 exTgtC5, by with_unfolding_all decide, rfl, rfl, rfl⟩

/-- Claim C5 amended: updateOrderStatus to completed/cancelled and a
fully-paying addPayment release the bound table (available, cleared
`currentOrder`); mergeOrders, however, cancels the source order WITHOUT
releasing its bound table — it touches no table document at all. -/
theorem release_table_invariant :
    (∀ (db : DB) (i : OrderId) (st : OrderStatus) (uid : UserId) (o : Order)
       (t : TableId) (td : Table) (db' : DB) (o' : Order),
       findOrder db.orders i = some o → o.table = some t → db.tables t = some td →
       (st = .completed ∨ st = .cancelled) →
       updateOrderStatus db i st uid = .ok (db', o') →
       db'.tables t = some { td with currentOrder := none, status := .available,
                                     mergedInto := none }) ∧
    (∀ (db : DB) (i : OrderId) (pay : Payment) (uid : UserId) (o : Order)
       (t : TableId) (td : Table) (db' : DB) (o' : Order),
       findOrder db.orders i = some o → ¬ (o.status = .cancelled) →
       o.table = some t → db.tables t = some td →
       sumAmounts (o.payments ++ [pay]) ≥ o.total →
       addPayment db i pay uid = .ok (db', o') →
       o'.status = .completed ∧
       db'.tables t = some { td with currentOrder := none, status := .available }) ∧
    (∀ (db : DB) (s tg : OrderId) (db' : DB) (o' : Order),
       mergeOrders db s tg = .ok (db', o') → db'.tables = db.tables) := by
  refine ⟨?_, ?_, ?_⟩
  · intro db i st uid o t td db' o' ho hot htd hst hok
    rw [updateOrderStatus_found db i st uid o ho] at hok
    injection hok with h'
    injection h' with hdb ho'
    rw [← hdb]
    show statusTables db o.table st t = _
    rw [statusTables_some db o.table t st hot, if_pos hst,
      freeTableFull_found db.tables t td htd]
    unfold tablesUpdate
    rw [if_pos rfl]
  · intro db i pay uid o t td db' o' ho hnc hot htd hp hok
    rw [addPayment_found db i pay uid o ho, if_neg hnc, if_pos hp] at hok
    injection hok with h'
    injection h' with hdb ho'
    constructor
    · rw [← ho']
      rfl
    · rw [← hdb]
      show payTables db o.table t = _
      rw [payTables_some db o.table t hot, freeTablePay_found db.tables t td htd]
      unfold tablesUpdate
      rw [if_pos rfl]
  · intro db s tg db' o' hok
    unfold mergeOrders at hok
    by_cases hne : s = tg
    · rw [if_pos hne] at hok
      exact Except.noConfusion hok
    · rw [if_neg hne] at hok
      cases hs : findOrder db.orders s with
      | none =>
        cases ht : findOrder db.orders tg with
        | none => rw [hs, ht] at hok; exact Except.noConfusion hok
        | some tgt => rw [hs, ht] at hok; exact Except.noConfusion hok
      | some src =>
        cases ht : findOrder db.orders tg with
        | none => rw [hs, ht] at hok; exact Except.noConfusion hok
        | some tgt =>
          rw [hs, ht] at hok
          exact mergeFound_tables db s tg src tgt db' o' hok

def exOrdW5 : Order :=
  { oid := 1, restaurant := 1, table := some 0, items := [], subtotal := 0,
    taxTotal := 0, discountTotal := 0, serviceCharge := 0, total := 500,
    payments := [], status := .pending, idempotencyKey := none,
    refunds := [], mergedInto := none, splitFrom := none, orderNumber := 1 }

def exDbW5 : DB :=
  { orders := [exOrdW5],
    tables := fun x =>
      if x = 0 then some { status := .occupied, currentOrder := some 1, mergedInto := none }
      else none,
    inv := fun _ => none, movements := [] }

/-- Witness for the amended C5 at concrete inputs: completing an order
frees its table, a full payment frees its table, and a merge leaves every
table document untouched. -/
theorem release_table_invariant_witness :
    (∃ (db' : DB) (o' : Order),
       updateOrderStatus exDbW5 1 .completed 0 = .ok (db', o') ∧
       db'.tables 0 = some { status := .available, currentOrder := none,
                             mergedInto := none }) ∧
    (∃ (db' : DB) (o' : Order),
       addPayment exDbW5 1 { amount := 500 } 0 = .ok (db', o') ∧
       o'.status = .completed ∧
       db'.tables 0 = some { status := .available, currentOrder := none,
                             mergedInto := none }) ∧
    (∃ (db' : DB) (o' : Order),
       mergeOrders exDbC5 1 2 = .ok (db', o') ∧ db'.tables = exDbC5.tables) := by
  obtain ⟨db1, o1, h1⟩ :
      ∃ (db' : DB) (o' : Order), updateOrderStatus exDbW5 1 .completed 0 = .ok (db', o') :=
    ⟨_, _, rfl⟩
  have h2 : addPayment exDbW5 1 { amount := 500 } 0 =
      .ok ({ exDbW5 with
              orders := updateOrder exDbW5.orders 1 (paidOrder exOrdW5 { amount := 500 }),
              tables := payTables exDbW5 exOrdW5.table },
           paidOrder exOrdW5 { amount := 500 }) := by
    rw [addPayment_found exDbW5 1 { amount := 500 } 0 exOrdW5 rfl,
      if_neg (by decide), if_pos (by with_unfolding_all decide)]
  obtain ⟨db3, o3, h3⟩ :
      ∃ (db' : DB) (o' : Order), mergeOrders exDbC5 1 2 = .ok (db', o') :=
    ⟨_, _, rfl⟩
  have c1 := release_table_invariant.1 exDbW5 1 .completed 0 exOrdW5 0
    { status := .occupied, currentOrder := some 1, mergedInto := none } db1 o1
    rfl rfl rfl (Or.inl rfl) h1
  have c2 := release_table_invariant.2.1 exDbW5 1 { amount := 500 } 0 exOrdW5 0
    { status := .occupied, currentOrder := some 1, mergedInto := none } _ _
    rfl (by decide) rfl rfl (by with_unfolding_all decide) h2
  have c3 := release_table_invariant.2.2 exDbC5 1 2 db3 o3 h3
  exact ⟨⟨db1, o1, h1, c1⟩, ⟨_, _, h2, c2.1, c2.2⟩, ⟨db3, o3, h3, c3⟩⟩


/-! ### Splitting and merging: list plumbing -/

theorem findOrder_oid (orders : List Order) (i : OrderId) (o : Order)
    (h : findOrder orders i = some o) : o.oid = i := by
  have hp := List.find?_some h
  simpa using hp

theorem find?_append_some {α : Type} (p : α → Bool) (l1 l2 : List α) (x : α)
    (h : l1.find? p = some x) : (l1 ++ l2).find? p = some x := by
  induction l1 with
  | nil => exact Option.noConfusion h
  | cons a rest ih =>
    rw [List.find?_cons] at h
    rw [List.cons_append, List.find?_cons]
    cases hpa : p a with
    | true => rw [hpa] at h; exact h
    | false => rw [hpa] at h; exact ih h

theorem findOrder_updateOrder (orders : List Order) (i : OrderId) (o o' : Order)
    (h : findOrder orders i = some o) (ho' : o'.oid = i) :
    findOrder (updateOrder orders i o') i = some o' := by
  unfold findOrder at h ⊢
  unfold updateOrder
  induction orders with
  | nil => exact Option.noConfusion h
  | cons a rest ih =>
    rw [List.map_cons]
    by_cases ha : a.oid = i
    · rw [if_pos ha]
      exact List.find?_cons_of_pos _ (by simp [ho'])
    · rw [if_neg ha]
      rw [List.find?_cons_of_neg _ (by simp [ha])]
      rw [List.find?_cons_of_neg _ (by simp [ha])] at h
      exact ih h

theorem updateOrder_oid_ne (orders : List Order) (i : OrderId) (o' : Order) (j : OrderId)
    (hfresh : ∀ x ∈ orders, x.oid ≠ j) (ho' : o'.oid ≠ j) :
    ∀ x ∈ updateOrder orders i o', x.oid ≠ j := by
  intro x hx
  unfold updateOrder at hx
  obtain ⟨y, hy, hxy⟩ := List.mem_map.mp hx
  by_cases hyi : y.oid = i
  · rw [if_pos hyi] at hxy
    rw [← hxy]
    exact ho'
  · rw [if_neg hyi] at hxy
    rw [← hxy]
    exact hfresh y hy

theorem pickItems_perm (sel : OrderItem → Nat → Bool) :
    ∀ (l : List OrderItem) (idx : Nat),
      ((pickItems sel l idx).2 ++ (pickItems sel l idx).1).Perm l := by
  intro l
  induction l with
  | nil => intro idx; simp [pickItems]
  | cons it rest ih =>
    intro idx
    simp only [pickItems]
    by_cases hsel : sel it idx = true
    · rw [if_pos hsel]
      show ((pickItems sel rest (idx + 1)).2 ++
        it :: (pickItems sel rest (idx + 1)).1).Perm (it :: rest)
      exact List.perm_middle.trans ((ih (idx + 1)).cons it)
    · rw [if_neg hsel]
      show ((it :: (pickItems sel rest (idx + 1)).2) ++
        (pickItems sel rest (idx + 1)).1).Perm (it :: rest)
      rw [List.cons_append]
      exact (ih (idx + 1)).cons it


/-! ### Claim C8: split then merge is the identity on lines -/

/-- Claim C8: for an order with a non-empty line list and a selection
matching at least one line (split succeeds), splitItemsToNewOrder
partitions the lines into the moved set (the new order) and the remaining
set (the original), and merging the new order back into the original with
mergeOrders (fresh id, distinct from the original's) yields a line set
equal as a multiset to the original order's lines. -/
theorem split_merge_multiset (db : DB) (orderId : OrderId) (idxs ids : List Nat)
    (uid : UserId) (newId : OrderId) (newNum : Nat) (o : Order) (db1 : DB) (newO : Order)
    (ho : findOrder db.orders orderId = some o)
    (hfresh : ∀ x ∈ db.orders, x.oid ≠ newId)
    (hne : newId ≠ orderId)
    (hsplit : splitItemsToNewOrder db orderId idxs ids uid newId newNum = .ok (db1, newO)) :
    ∃ (db2 : DB) (merged : Order),
      mergeOrders db1 newId orderId = .ok (db2, merged) ∧
      Multiset.ofList merged.items = Multiset.ofList o.items := by
  rw [splitItems_found db orderId idxs ids uid newId newNum o ho] at hsplit
  by_cases hempty : o.items.isEmpty = true
  · rw [if_pos hempty] at hsplit
    exact Except.noConfusion hsplit
  rw [if_neg hempty] at hsplit
  by_cases hmv : (pickItems (selectedLine idxs ids) o.items 0).1.isEmpty = true
  · rw [if_pos hmv] at hsplit
    exact Except.noConfusion hsplit
  rw [if_neg hmv] at hsplit
  unfold splitFound at hsplit
  injection hsplit with hp
  injection hp with hdb hnew
  subst hdb
  subst hnew
  have hoid := findOrder_oid db.orders orderId o ho
  have horder1oid :
      (recalculateTotals { o with items := (pickItems (selectedLine idxs ids) o.items 0).2 }).oid
        = orderId := hoid
  have hall : ∀ x ∈ updateOrder db.orders orderId
      (recalculateTotals { o with items := (pickItems (selectedLine idxs ids) o.items 0).2 }),
      x.oid ≠ newId :=
    updateOrder_oid_ne db.orders orderId _ newId hfresh
      (by rw [horder1oid]; exact Ne.symm hne)
  have hsrcfind : findOrder
      (updateOrder db.orders orderId
        (recalculateTotals { o with items := (pickItems (selectedLine idxs ids) o.items 0).2 }) ++
        [splitNewOrder o (pickItems (selectedLine idxs ids) o.items 0).1 newId newNum])
      newId =
      some (splitNewOrder o (pickItems (selectedLine idxs ids) o.items 0).1 newId newNum) := by
    unfold findOrder
    rw [find?_append_none _ _ _ (List.find?_eq_none.mpr (fun x hx => by simp [hall x hx]))]
    have hnewoid : (splitNewOrder o (pickItems (selectedLine idxs ids) o.items 0).1
        newId newNum).oid = newId := rfl
    exact List.find?_cons_of_pos _ (by simp [hnewoid])
  have htgtfind : findOrder
      (updateOrder db.orders orderId
        (recalculateTotals { o with items := (pickItems (selectedLine idxs ids) o.items 0).2 }) ++
        [splitNewOrder o (pickItems (selectedLine idxs ids) o.items 0).1 newId newNum])
      orderId =
      some (recalculateTotals
        { o with items := (pickItems (selectedLine idxs ids) o.items 0).2 }) := by
    unfold findOrder
    apply find?_append_some
    exact findOrder_updateOrder db.orders orderId o _ ho horder1oid
  rw [mergeOrders_found _ newId orderId _ _ hne hsrcfind htgtfind]
  unfold mergeFound
  have hcond : ¬ ((splitNewOrder o (pickItems (selectedLine idxs ids) o.items 0).1
        newId newNum).table.isSome = true ∧
      (recalculateTotals
        { o with items := (pickItems (selectedLine idxs ids) o.items 0).2 }).table = none) := by
    rintro ⟨h1, h2⟩
    have h2' : o.table = none := h2
    have h1' : o.table.isSome = true := h1
    rw [h2'] at h1'
    exact Bool.noConfusion h1'
  rw [if_neg hcond]
  refine ⟨_, _, rfl, ?_⟩
  show Multiset.ofList
      ((pickItems (selectedLine idxs ids) o.items 0).2 ++
        (pickItems (selectedLine idxs ids) o.items 0).1) =
    Multiset.ofList o.items
  exact Multiset.coe_eq_coe.mpr (pickItems_perm (selectedLine idxs ids) o.items 0)

def exItemA : OrderItem :=
  { menuItem := none, name := "A", variantId := none, modifiers := [], qty := 1,
    price := 100, discount := 0, lineId := some 11 }

def exItemB : OrderItem :=
  { menuItem := none, name := "B", variantId := none, modifiers := [], qty := 1,
    price := 100, discount := 0, lineId := some 12 }

def exOrderC8 : Order :=
  { oid := 1, restaurant := 1, table := none, items := [exItemA, exItemB],
    subtotal := 200, taxTotal := 0, discountTotal := 0, serviceCharge := 0,
    total := 200, payments := [], status := .pending, idempotencyKey := none,
    refunds := [], mergedInto := none, splitFrom := none, orderNumber := 1 }

def exDbC8 : DB :=
  { orders := [exOrderC8], tables := fun _ => none, inv := fun _ => none, movements := [] }

/-- Witness for C8: splitting line 0 out of a two-line order and merging
the new order back restores the original line multiset. -/
theorem split_merge_multiset_witness :
    ∃ (db1 : DB) (newO : Order) (db2 : DB) (merged : Order),
      splitItemsToNewOrder exDbC8 1 [0] [] 0 2 20 = .ok (db1, newO) ∧
      mergeOrders db1 2 1 = .ok (db2, merged) ∧
      Multiset.ofList merged.items = Multiset.ofList exOrderC8.items := by
  obtain ⟨db2, merged, hm, hmul⟩ :=
    split_merge_multiset exDbC8 1 [0] [] 0 2 20 exOrderC8 _ _ rfl
      (by decide) (by decide) rfl
  exact ⟨_, _, db2, merged, rfl, hm, hmul⟩


/-! ### Claim C10: the split's totals -/

def exOrderC10 : Order :=
  { oid := 1, restaurant := 1, table := none, items := [exItemA, exItemB],
    subtotal := 200, taxTotal := 50, discountTotal := 0, serviceCharge := 0,
    total := 250, payments := [], status := .pending, idempotencyKey := none,
    refunds := [], mergedInto := none, splitFrom := none, orderNumber := 1 }

def exDbC10 : DB :=
  { orders := [exOrderC10], tables := fun _ => none, inv := fun _ => none, movements := [] }

/-- Counterexample to the last clause of claim C10: the order's taxTotal
is non-zero (50), yet after the split the two orders' totals still sum
exactly to the original total (100 + 150 = 250) — the sum can never
diverge, because the subtotal is additive over the partition and the
source keeps every scalar. -/
theorem split_totals_counterexample :
    exOrderC10.taxTotal ≠ 0 ∧
    ∃ (db1 : DB) (newO srcAfter : Order),
      splitItemsToNewOrder exDbC10 1 [0] [] 0 2 20 = .ok (db1, newO) ∧
      findOrder db1.orders 1 = some srcAfter ∧
      newO.total + srcAfter.total = exOrderC10.total := by
  refine ⟨by with_unfolding_all decide, _, _, _, rfl, rfl, by with_unfolding_all decide⟩

/-- Claim C10 amended: the new order created by a successful split always
has `taxTotal = 0`, `discountTotal = 0`, `serviceCharge = 0` and an empty
payments list, while the source order keeps its original scalars; and —
contrary to the claim's final clause — whenever the source's stored total
was consistent with its lines, the sum of the two orders' totals after the
split ALWAYS equals the original order's total, also when the scalars are
non-zero. -/
theorem split_totals_spec (db : DB) (orderId : OrderId) (idxs ids : List Nat)
    (uid : UserId) (newId : OrderId) (newNum : Nat) (o : Order) (db1 : DB) (newO : Order)
    (ho : findOrder db.orders orderId = some o)
    (hsplit : splitItemsToNewOrder db orderId idxs ids uid newId newNum = .ok (db1, newO))
    (hcons : o.total = recalcSubtotal o.items + jsOr o.taxTotal 0 +
       jsOr o.serviceCharge 0 - jsOr o.discountTotal 0) :
    newO.taxTotal = 0 ∧ newO.discountTotal = 0 ∧ newO.serviceCharge = 0 ∧
    newO.payments = [] ∧
    ∃ srcAfter : Order,
      findOrder db1.orders orderId = some srcAfter ∧
      srcAfter.taxTotal = o.taxTotal ∧ srcAfter.discountTotal = o.discountTotal ∧
      srcAfter.serviceCharge = o.serviceCharge ∧
      newO.total + srcAfter.total = o.total := by
  rw [splitItems_found db orderId idxs ids uid newId newNum o ho] at hsplit
  by_cases hempty : o.items.isEmpty = true
  · rw [if_pos hempty] at hsplit
    exact Except.noConfusion hsplit
  rw [if_neg hempty] at hsplit
  by_cases hmv : (pickItems (selectedLine idxs ids) o.items 0).1.isEmpty = true
  · rw [if_pos hmv] at hsplit
    exact Except.noConfusion hsplit
  rw [if_neg hmv] at hsplit
  unfold splitFound at hsplit
  injection hsplit with hp
  injection hp with hdb hnew
  subst hdb
  subst hnew
  have hoid := findOrder_oid db.orders orderId o ho
  refine ⟨rfl, rfl, rfl, rfl,
    recalculateTotals { o with items := (pickItems (selectedLine idxs ids) o.items 0).2 },
    ?_, rfl, rfl, rfl, ?_⟩
  · show findOrder
      (updateOrder db.orders orderId
        (recalculateTotals { o with items := (pickItems (selectedLine idxs ids) o.items 0).2 }) ++
        [splitNewOrder o (pickItems (selectedLine idxs ids) o.items 0).1 newId newNum])
      orderId = _
    unfold findOrder
    apply find?_append_some
    exact findOrder_updateOrder db.orders orderId o _ ho hoid
  · have hperm := pickItems_perm (selectedLine idxs ids) o.items 0
    have hsum : recalcSubtotal (pickItems (selectedLine idxs ids) o.items 0).2 +
        recalcSubtotal (pickItems (selectedLine idxs ids) o.items 0).1 =
        recalcSubtotal o.items := by
      rw [← recalcSubtotal_append, recalcSubtotal_eq_sum, recalcSubtotal_eq_sum]
      exact (hperm.map lineContribution).sum_eq
    show (recalcSubtotal (pickItems (selectedLine idxs ids) o.items 0).1 +
        jsOr 0 0 + jsOr 0 0 - jsOr 0 0) +
      (recalcSubtotal (pickItems (selectedLine idxs ids) o.items 0).2 +
        jsOr o.taxTotal 0 + jsOr o.serviceCharge 0 - jsOr o.discountTotal 0) = o.total
    rw [hcons]
    simp only [jsOr_zero]
    rw [← hsum]
    ring

/-- Witness for the amended C10 at the concrete order with taxTotal 50. -/
theorem split_totals_spec_witness :
    ∃ (db1 : DB) (newO : Order),
      splitItemsToNewOrder exDbC10 1 [0] [] 0 2 20 = .ok (db1, newO) ∧
      newO.taxTotal = 0 ∧ newO.payments = [] ∧
      ∃ srcAfter : Order,
        findOrder db1.orders 1 = some srcAfter ∧
        srcAfter.taxTotal = exOrderC10.taxTotal ∧
        newO.total + srcAfter.total = exOrderC10.total := by
  obtain ⟨h1, h2, h3, h4, srcAfter, hfind, ht, hd, hs, hsum⟩ :=
    split_totals_spec exDbC10 1 [0] [] 0 2 20 exOrderC10 _ _ rfl rfl
      (by with_unfolding_all decide)
  exact ⟨_, _, rfl, h1, h4, srcAfter, hfind, ht, hsum⟩


end POS
